import Mathlib

/-!
# Verification of the mandelbrot-explorer computation core

Shallow embedding of the deep-zoom fractal engine:
* the CPU worker's escape-time loop with cardioid/bulb short-circuits and
  periodicity detection (`src/unnamed/part_008`),
* the WebGL perturbation shader's two-phase pixel evaluation and the
  reference-orbit machinery (`src/src/hooks/useWebGLMandelbrot.ts`,
  `src/unnamed/part_011`),
* the CPU tile scheduler's row-band partition and completion counting
  (`src/unnamed/part_012`),
* the camera model's zoom-at-point operations
  (`src/src/hooks/useWebGLMandelbrot.ts`),
* the smooth-coloring palette mapper (`src/unnamed/part_010`).

JavaScript double arithmetic is modelled exactly over `ℚ` (respectively `ℝ`
plus IEEE special values where `Math.log2`/`Math.cos` and division by zero
are involved); rounding of individual float operations is not modelled.
-/

namespace MandelbrotExplorer

/-! ## The escape-time core over exact rationals

The complex number z is carried componentwise as a pair `(zr, zi)`, exactly
as all the sources do. -/

/-- One Mandelbrot update `z ← z² + c` with `c = (x0, y0)`, carried out
componentwise exactly as in the worker loop (`y = 2*x*y + y0;
x = x2 - y2 + x0` on the previous components). -/
def stepQ (x0 y0 : ℚ) (p : ℚ × ℚ) : ℚ × ℚ :=
  (p.1 * p.1 - p.2 * p.2 + x0, 2 * p.1 * p.2 + y0)

/-- The true orbit of the critical point: `orbitQ x0 y0 n` is `z_n` for
`z_0 = 0`, `z_{k+1} = z_k² + (x0, y0)`. -/
def orbitQ (x0 y0 : ℚ) : ℕ → ℚ × ℚ
  | 0 => (0, 0)
  | n + 1 => stepQ x0 y0 (orbitQ x0 y0 n)

/-- `|z|²` of a componentwise complex value. -/
def normSq (p : ℚ × ℚ) : ℚ := p.1 * p.1 + p.2 * p.2

/-- Loop state of the worker's optimized mandelbrot loop
(`src/unnamed/part_008`, lines 254-289): current point `(x, y)`, its cached
squares `(x2, y2)`, the periodicity checkpoint `(xOld, yOld)`, the `period`
counter and the iteration counter. -/
structure OptState where
  x : ℚ
  y : ℚ
  x2 : ℚ
  y2 : ℚ
  xOld : ℚ
  yOld : ℚ
  period : ℕ
  iter : ℕ
  deriving DecidableEq

/-- Initial loop state of the worker loop: `x = y = x2 = y2 = 0`,
`xOld = yOld = 0`, `period = 0`, `iter = 0`. -/
def optInit : OptState := ⟨0, 0, 0, 0, 0, 0, 0, 0⟩

/-- The worker's optimized mandelbrot loop (`src/unnamed/part_008`):
`while (x2 + y2 <= 4 && iter < maxIterations)` step, then the periodicity
short-circuit `if (x === xOld && y === yOld) { iter = maxIterations; break }`,
then the checkpoint refresh `period++; if (period > 20) { period = 0;
xOld = x; yOld = y }`.  `fuel` bounds the recursion; the top-level call uses
`fuel = maxI`, which the `iter < maxI` conjunct makes exact. -/
def optGo (x0 y0 : ℚ) (maxI : ℕ) : ℕ → OptState → OptState
  | 0, s => s
  | fuel + 1, s =>
    if s.x2 + s.y2 ≤ 4 ∧ s.iter < maxI then
      let y' := 2 * s.x * s.y + y0
      let x' := s.x2 - s.y2 + x0
      let x2' := x' * x'
      let y2' := y' * y'
      if x' = s.xOld ∧ y' = s.yOld then
        ⟨x', y', x2', y2', s.xOld, s.yOld, s.period, maxI⟩
      else
        if 20 < s.period + 1 then
          optGo x0 y0 maxI fuel ⟨x', y', x2', y2', x', y', 0, s.iter + 1⟩
        else
          optGo x0 y0 maxI fuel ⟨x', y', x2', y2', s.xOld, s.yOld, s.period + 1, s.iter + 1⟩
    else s

/-- Iteration count reported by the worker's optimized loop. -/
def mandelOpt (x0 y0 : ℚ) (maxI : ℕ) : ℕ := (optGo x0 y0 maxI maxI optInit).iter

/-- The plain, unoptimized escape-time loop the spec compares against:
identical to the worker loop with the periodicity-detection lines removed. -/
def plainGo (x0 y0 : ℚ) (maxI : ℕ) : ℕ → ℚ → ℚ → ℕ → ℕ
  | 0, _, _, iter => iter
  | fuel + 1, x, y, iter =>
    if x * x + y * y ≤ 4 ∧ iter < maxI then
      plainGo x0 y0 maxI fuel (x * x - y * y + x0) (2 * x * y + y0) (iter + 1)
    else iter

/-- Iteration count reported by the plain escape-time loop. -/
def mandelPlain (x0 y0 : ℚ) (maxI : ℕ) : ℕ := plainGo x0 y0 maxI maxI 0 0 0

/-- The worker's per-pixel computation (`src/unnamed/part_008`): the main
cardioid check `q*(q + (x0 - 0.25)) <= 0.25*y0*y0` with
`q = (x0-0.25)² + y0²`, then the period-2 bulb check
`(x0+1)² + y0² <= 0.0625`, then the optimized loop; the stored value is the
iteration count (`maxIterations` meaning bounded). -/
def workerPixel (x0 y0 : ℚ) (maxI : ℕ) : ℕ :=
  let q := (x0 - 1/4) * (x0 - 1/4) + y0 * y0
  if q * (q + (x0 - 1/4)) ≤ 1/4 * (y0 * y0) then maxI
  else if (x0 + 1) * (x0 + 1) + y0 * y0 ≤ 1/16 then maxI
  else mandelOpt x0 y0 maxI

/-! ## Reference orbits (`computeReferenceOrbit`)

Two copies exist in the repository.  `useWebGLMandelbrot.ts` (lines 675-703)
records the orbit, escapes on `zr2 + zi2 > 4.0`, fills the remaining slots
with the escape value and returns the escape index; `src/unnamed/part_011`
(lines 168-200) is identical except that it escapes on `zr2 + zi2 > 256`
("extended bailout") and returns only the orbit array.  Both are instances
of `refOrbitGo`, differing in the bailout threshold and in whether the
returned escape index is used. -/

/-- The recording loop shared by both `computeReferenceOrbit` copies:
at index `i` record `z`; if `|z|² > bail` fill the remaining `fuel` slots
(indices `i .. maxIter-1`) with `z` and report escape index `i`; otherwise
step `z ← z² + (cr, ci)`.  `fuel` is the number of slots still to fill;
when it runs out the escape index is the current `i`, i.e. `maxIter`,
matching the `let escapeIter = maxIterations` initialisation. -/
def refOrbitGo (cr ci bail : ℚ) : ℕ → ℕ → ℚ × ℚ → List (ℚ × ℚ) × ℕ
  | 0, i, _ => ([], i)
  | fuel + 1, i, z =>
    if bail < z.1 * z.1 + z.2 * z.2 then (List.replicate (fuel + 1) z, i)
    else
      let r := refOrbitGo cr ci bail fuel (i + 1) (z.1 * z.1 - z.2 * z.2 + cr, 2 * z.1 * z.2 + ci)
      (z :: r.1, r.2)

/-- `computeReferenceOrbit` from `useWebGLMandelbrot.ts` (lines 675-703):
bailout `4.0`, returns the recorded orbit together with `escapeIter`. -/
def computeReferenceOrbitHook (cr ci : ℚ) (maxI : ℕ) : List (ℚ × ℚ) × ℕ :=
  refOrbitGo cr ci 4 maxI 0 (0, 0)

/-- `computeReferenceOrbit` from `src/unnamed/part_011` (lines 168-200):
extended bailout `256` (`|Z|² > 256`, radius 16), returns only the orbit. -/
def computeReferenceOrbitExt (cr ci : ℚ) (maxI : ℕ) : List (ℚ × ℚ) :=
  (refOrbitGo cr ci 256 maxI 0 (0, 0)).1

/-- The escape index the claim attributes to reference-orbit computation:
the first index `k < maxI` at which the true orbit satisfies `|Z_k|² > 256`
(extended bailout radius 16), and `maxI` if there is none.  This definition
follows the words of the spec, for comparison with the code. -/
def claimedEscapeIterExt (cr ci : ℚ) (maxI : ℕ) : ℕ :=
  ((List.range maxI).filter fun k => 256 < normSq (orbitQ cr ci k)).headD maxI

/-! ## Reference-point search (`findBestReference` / `testEscape`),
`useWebGLMandelbrot.ts` lines 629-673. -/

/-- `testEscape` (`useWebGLMandelbrot.ts` lines 662-673): iterate `z ← z² + c`
from `z = 0`; return the first `i < maxIterations` with `|z_i|² > 4`, and
`maxIterations` if the loop completes. -/
def testEscapeGo (x y : ℚ) (maxI : ℕ) : ℕ → ℕ → ℚ × ℚ → ℕ
  | 0, _, _ => maxI
  | fuel + 1, i, z =>
    if 4 < z.1 * z.1 + z.2 * z.2 then i
    else testEscapeGo x y maxI fuel (i + 1) (z.1 * z.1 - z.2 * z.2 + x, 2 * z.1 * z.2 + y)

/-- Escape iteration of the probe point `(x, y)`. -/
def testEscape (x y : ℚ) (maxI : ℕ) : ℕ := testEscapeGo x y maxI maxI 0 (0, 0)

/-- The fixed probe grid `searchPoints` of `findBestReference`
(`useWebGLMandelbrot.ts` lines 641-645). -/
def searchPoints : List (ℚ × ℚ) :=
  [(0, 0), (-1/4, 0), (1/4, 0), (0, -1/4), (0, 1/4),
   (-1/4, -1/4), (1/4, -1/4), (-1/4, 1/4), (1/4, 1/4),
   (-1/10, 0), (1/10, 0), (0, -1/10), (0, 1/10)]

/-- The probe loop of `findBestReference`: scale each grid offset by the full
view width/height, keep the probe with the strictly larger escape iteration,
and break as soon as the kept escape reaches `maxIterations`. -/
def searchGo (cx cy vw vh : ℚ) (maxI : ℕ) : List (ℚ × ℚ) → (ℚ × ℚ) × ℕ → (ℚ × ℚ) × ℕ
  | [], best => best
  | d :: ds, best =>
    let tx := cx + d.1 * vw
    let ty := cy + d.2 * vh
    let e := testEscape tx ty maxI
    if best.2 < e then
      if maxI ≤ e then ((tx, ty), e)
      else searchGo cx cy vw vh maxI ds ((tx, ty), e)
    else searchGo cx cy vw vh maxI ds best

/-- `findBestReference` (`useWebGLMandelbrot.ts` lines 629-660): accept the
view center when `bestEscape >= maxIterations * 0.8`, otherwise run the probe
loop seeded with the center. -/
def findBestReference (cx cy vw vh : ℚ) (maxI : ℕ) : (ℚ × ℚ) × ℕ :=
  let bestEscape := testEscape cx cy maxI
  if (maxI : ℚ) * (8/10) ≤ (bestEscape : ℚ) then ((cx, cy), bestEscape)
  else searchGo cx cy vw vh maxI searchPoints ((cx, cy), bestEscape)

/-- The search as the claim describes it, with the grid offsets scaled by the
view's HALF-width/height instead of the full width/height.  This definition
follows the words of the spec, for comparison with the code. -/
def findBestReferenceSpecGrid (cx cy vw vh : ℚ) (maxI : ℕ) : (ℚ × ℚ) × ℕ :=
  let bestEscape := testEscape cx cy maxI
  if (maxI : ℚ) * (8/10) ≤ (bestEscape : ℚ) then ((cx, cy), bestEscape)
  else searchGo cx cy (vw / 2) (vh / 2) maxI searchPoints ((cx, cy), bestEscape)

/-! ## The perturbation shader (`useWebGLMandelbrot.ts`, fragment shader
lines 505-564, mandelbrot branch) -/

/-- Result of the shader's phase 1 (perturbation) loop: the variables `z`,
`dz`, `iteration`, `escaped`, `useDirectCompute` at the `break`. -/
structure P1Out where
  z : ℚ × ℚ
  dz : ℚ × ℚ
  iter : ℕ
  escaped : Bool
  useDirect : Bool
  deriving DecidableEq

/-- Phase 1 of the shader's mandelbrot path: while the reference orbit lasts,
set `z = Z_i + dz`, test `|z|² > 4` for escape, test `|dz|² > 1e6` for a
glitch, else advance `dz ← 2·Z_i·dz + dz² + dc`.  On `i >= refOrbitLen` or
`i >= maxIterations` the loop leaves with `useDirectCompute = (i <
maxIterations)` WITHOUT recomputing `z` — `z` still holds the value set in
the previous pass. -/
def shaderP1 (refZ : ℕ → ℚ × ℚ) (refLen maxI : ℕ) (dc : ℚ × ℚ) :
    ℕ → ℕ → ℚ × ℚ → ℚ × ℚ → ℕ → P1Out
  | 0, _, z, dz, iter => ⟨z, dz, iter, false, false⟩
  | fuel + 1, i, z, dz, iter =>
    if refLen ≤ i ∨ maxI ≤ i then ⟨z, dz, iter, false, decide (i < maxI)⟩
    else
      let Zn := refZ i
      let z' := (Zn.1 + dz.1, Zn.2 + dz.2)
      if 4 < z'.1 * z'.1 + z'.2 * z'.2 then ⟨z', dz, iter, true, false⟩
      else if 1000000 < dz.1 * dz.1 + dz.2 * dz.2 then ⟨z', dz, iter, false, true⟩
      else
        let twoZdz : ℚ × ℚ :=
          (2 * (Zn.1 * dz.1 - Zn.2 * dz.2), 2 * (Zn.1 * dz.2 + Zn.2 * dz.1))
        let dz2 : ℚ × ℚ := (dz.1 * dz.1 - dz.2 * dz.2, 2 * (dz.1 * dz.2))
        shaderP1 refZ refLen maxI dc fuel (i + 1) z'
          (twoZdz.1 + dz2.1 + dc.1, twoZdz.2 + dz2.2 + dc.2) (i + 1)

/-- Phase 2 of the shader's mandelbrot path (direct fallback): from the
current `z` and `iteration`, plain `z ← z² + c` with escape test `|z|² > 4`
until `maxIterations`.  Returns `(z, iteration, escaped)`. -/
def shaderP2 (cx cy : ℚ) (maxI : ℕ) : ℕ → ℕ → ℚ × ℚ → ℕ → (ℚ × ℚ) × ℕ × Bool
  | 0, _, z, iter => (z, iter, false)
  | fuel + 1, i, z, iter =>
    if maxI ≤ i then (z, iter, false)
    else if 4 < z.1 * z.1 + z.2 * z.2 then (z, iter, true)
    else shaderP2 cx cy maxI fuel (i + 1)
      (z.1 * z.1 - z.2 * z.2 + cx, 2 * z.1 * z.2 + cy) (i + 1)

/-- The shader's full mandelbrot evaluation for one pixel:
`dc = pixelOffset - refOffset`, `c = center + pixelOffset`, phase 1, then
phase 2 when `useDirectCompute && !escaped`.  Returns the final
`(iteration, escaped)` pair that drives colouring (`!escaped` renders
black/bounded). -/
def shaderMandel (refZ : ℕ → ℚ × ℚ) (refLen maxI : ℕ)
    (center pixelOffset refOffset : ℚ × ℚ) : ℕ × Bool :=
  let dc : ℚ × ℚ := (pixelOffset.1 - refOffset.1, pixelOffset.2 - refOffset.2)
  let c : ℚ × ℚ := (center.1 + pixelOffset.1, center.2 + pixelOffset.2)
  let p1 := shaderP1 refZ refLen maxI dc (maxI + 1) 0 (0, 0) (0, 0) 0
  if p1.useDirect && !p1.escaped then
    let p2 := shaderP2 c.1 c.2 maxI (maxI + 1) p1.iter p1.z p1.iter
    (p2.2.1, p2.2.2)
  else (p1.iter, p1.escaped)

/-! ## The CPU tile scheduler (`src/unnamed/part_012`) -/

/-- `Math.ceil(height / workers.length)` as computed in `render`
(line 127); `wc` is the worker count. -/
def chunksPerWorker (height wc : ℕ) : ℕ := (height + wc - 1) / wc

/-- The row bands actually dispatched by `render` (lines 136-154): worker `i`
gets `[i*cpw, min((i+1)*cpw, height))`, and a task is posted only when
`startRow < height`. -/
def bands (height wc : ℕ) : List (ℕ × ℕ) :=
  (List.range wc).filterMap fun i =>
    let s := i * chunksPerWorker height wc
    if s < height then some (s, min ((i + 1) * chunksPerWorker height wc) height) else none

/-- The completion test of `worker.onmessage` (line 80): the frame is marked
complete when the number of returned results equals `task.total`, which
`render` registers as `workers.length` (line 131), not as the number of
dispatched bands. -/
def frameComplete (received wc : ℕ) : Bool := received == wc

/-! ## The camera model (`useWebGLMandelbrot.ts` lines 1000-1063) -/

/-- A view `{centerX, centerY, zoom}`. -/
structure View where
  cx : ℚ
  cy : ℚ
  zoom : ℚ
  deriving DecidableEq

/-- Screen-point to complex-plane conversion used by `zoomAt` and
`zoomAtInstant` (CSS-rect variant): `viewWidth = 4 / zoom`,
`viewHeight = viewWidth / (rw / rh)`,
`re = centerX + (sx / rw - 0.5) * viewWidth`,
`im = centerY + (0.5 - sy / rh) * viewHeight`. -/
def complexAtPoint (v : View) (rw rh sx sy : ℚ) : ℚ × ℚ :=
  let viewWidth := 4 / v.zoom
  let viewHeight := viewWidth / (rw / rh)
  (v.cx + (sx / rw - 1/2) * viewWidth, v.cy + (1/2 - sy / rh) * viewHeight)

/-- The target view computed by `zoomAt` (lines 1036-1063):
`zoomFactor = 2` or `0.5`, `panFactor = 0.5` or `-0.5`,
`newCenter = center + (clicked - center) * panFactor`.  The eased animation
started by `animateTo` ends exactly at this target (`eased = 1`), so a
settled `zoomAt` equals this function. -/
def zoomAtTarget (v : View) (rw rh sx sy : ℚ) (zoomIn : Bool) : View :=
  let p := complexAtPoint v rw rh sx sy
  let zoomFactor : ℚ := if zoomIn then 2 else 1/2
  let panFactor : ℚ := if zoomIn then 1/2 else -(1/2)
  ⟨v.cx + (p.1 - v.cx) * panFactor, v.cy + (p.2 - v.cy) * panFactor, v.zoom * zoomFactor⟩

/-- The view produced by `zoomAtInstant` (lines 1000-1033):
`panFactor = 1 - 1/zoomFactor` (zoom in) or `1 - zoomFactor` (zoom out),
`direction = ±1`, applied immediately. -/
def zoomAtInstantView (v : View) (rw rh sx sy zoomFactor : ℚ) : View :=
  let p := complexAtPoint v rw rh sx sy
  let panFactor : ℚ := if 1 < zoomFactor then 1 - 1 / zoomFactor else 1 - zoomFactor
  let direction : ℚ := if 1 < zoomFactor then 1 else -1
  ⟨v.cx + (p.1 - v.cx) * panFactor * direction,
   v.cy + (p.2 - v.cy) * panFactor * direction,
   v.zoom * zoomFactor⟩

/-! ## JavaScript number semantics for the palette mapper
(`src/unnamed/part_010`)

`getColor` applies `Math.log2`, `Math.cos`, `Math.floor`, `%` and array
indexing to values that can become `±Infinity` or `NaN`, so finite values
are modelled as exact reals and the IEEE special values are carried
explicitly.  Negative zero is not distinguished from zero (no operation in
`getColor` can tell them apart). -/

/-- A JavaScript number: a finite value (as an exact real), `Infinity`,
`-Infinity`, or `NaN`. -/
inductive JSVal where
  | num : ℝ → JSVal
  | posInf : JSVal
  | negInf : JSVal
  | nan : JSVal

open Classical in
/-- JS addition. -/
noncomputable def jsAdd : JSVal → JSVal → JSVal
  | .nan, _ => .nan
  | _, .nan => .nan
  | .num a, .num b => .num (a + b)
  | .num _, .posInf => .posInf
  | .posInf, .num _ => .posInf
  | .num _, .negInf => .negInf
  | .negInf, .num _ => .negInf
  | .posInf, .posInf => .posInf
  | .negInf, .negInf => .negInf
  | .posInf, .negInf => .nan
  | .negInf, .posInf => .nan

open Classical in
/-- JS subtraction. -/
noncomputable def jsSub : JSVal → JSVal → JSVal
  | .nan, _ => .nan
  | _, .nan => .nan
  | .num a, .num b => .num (a - b)
  | .num _, .posInf => .negInf
  | .posInf, .num _ => .posInf
  | .num _, .negInf => .posInf
  | .negInf, .num _ => .negInf
  | .posInf, .negInf => .posInf
  | .negInf, .posInf => .negInf
  | .posInf, .posInf => .nan
  | .negInf, .negInf => .nan

open Classical in
/-- JS multiplication (`±Infinity * 0 = NaN`). -/
noncomputable def jsMul : JSVal → JSVal → JSVal
  | .nan, _ => .nan
  | _, .nan => .nan
  | .num a, .num b => .num (a * b)
  | .num a, .posInf => if 0 < a then .posInf else if a < 0 then .negInf else .nan
  | .posInf, .num b => if 0 < b then .posInf else if b < 0 then .negInf else .nan
  | .num a, .negInf => if 0 < a then .negInf else if a < 0 then .posInf else .nan
  | .negInf, .num b => if 0 < b then .negInf else if b < 0 then .posInf else .nan
  | .posInf, .posInf => .posInf
  | .negInf, .negInf => .posInf
  | .posInf, .negInf => .negInf
  | .negInf, .posInf => .negInf

open Classical in
/-- JS division (`x / 0` gives a signed infinity for `x ≠ 0` and `NaN` for
`0 / 0`; division by an infinity gives `0`). -/
noncomputable def jsDiv : JSVal → JSVal → JSVal
  | .nan, _ => .nan
  | _, .nan => .nan
  | .num a, .num b =>
    if b = 0 then (if 0 < a then .posInf else if a < 0 then .negInf else .nan)
    else .num (a / b)
  | .num _, .posInf => .num 0
  | .num _, .negInf => .num 0
  | .posInf, .num b => if b < 0 then .negInf else .posInf
  | .negInf, .num b => if b < 0 then .posInf else .negInf
  | .posInf, .posInf => .nan
  | .posInf, .negInf => .nan
  | .negInf, .posInf => .nan
  | .negInf, .negInf => .nan

open Classical in
/-- `Math.log2`: `log2 0 = -Infinity`, `log2 x = NaN` for `x < 0`. -/
noncomputable def jsLog2 : JSVal → JSVal
  | .num a => if 0 < a then .num (Real.logb 2 a) else if a = 0 then .negInf else .nan
  | .posInf => .posInf
  | .negInf => .nan
  | .nan => .nan

/-- `Math.floor`. -/
noncomputable def jsFloor : JSVal → JSVal
  | .num a => .num (⌊a⌋ : ℤ)
  | .posInf => .posInf
  | .negInf => .negInf
  | .nan => .nan

open Classical in
/-- Truncation toward zero, as used by the JS `%` operator. -/
noncomputable def jsTruncR (x : ℝ) : ℤ := if 0 ≤ x then ⌊x⌋ else ⌈x⌉

open Classical in
/-- The JS remainder operator `%`: `a % b = a - b * trunc(a / b)` for finite
operands, `NaN` when the dividend is infinite or the divisor is zero, `a`
when the divisor is infinite. -/
noncomputable def jsMod : JSVal → JSVal → JSVal
  | .nan, _ => .nan
  | _, .nan => .nan
  | .num a, .num b => if b = 0 then .nan else .num (a - b * (jsTruncR (a / b) : ℤ))
  | .num a, .posInf => .num a
  | .num a, .negInf => .num a
  | .posInf, _ => .nan
  | .negInf, _ => .nan

/-- `Math.abs`. -/
noncomputable def jsAbs : JSVal → JSVal
  | .num a => .num |a|
  | .posInf => .posInf
  | .negInf => .posInf
  | .nan => .nan

/-- `Math.max` of two values (`NaN` propagates). -/
noncomputable def jsMax : JSVal → JSVal → JSVal
  | .nan, _ => .nan
  | _, .nan => .nan
  | .num a, .num b => .num (max a b)
  | .num _, .posInf => .posInf
  | .posInf, .num _ => .posInf
  | .posInf, .posInf => .posInf
  | .num a, .negInf => .num a
  | .negInf, .num b => .num b
  | .negInf, .negInf => .negInf
  | .negInf, .posInf => .posInf
  | .posInf, .negInf => .posInf

/-- `Math.cos` (`cos(±Infinity) = NaN`). -/
noncomputable def jsCos : JSVal → JSVal
  | .num a => .num (Real.cos a)
  | _ => .nan

/-- `Math.round` at the integer boundary of the result triple: a finite value
rounds half-up (`Math.round x = ⌊x + 1/2⌋`, which is Mathlib's `round`); a
special value yields no finite integer. -/
noncomputable def jsRound : JSVal → Option ℤ
  | .num a => some (round a)
  | _ => none

open Classical in
/-- The JS comparison `innerLog > 0` (false for `NaN`). -/
noncomputable def jsGtZero : JSVal → Bool
  | .num a => decide (0 < a)
  | .posInf => true
  | .negInf => false
  | .nan => false

open Classical in
/-- Indexing the 8-entry `COLORS` array of `src/unnamed/part_010` with a JS
number: defined (`some`) exactly when the index is one of the integer keys
`0 .. 7`; any other number — fractional, negative, out of range, `NaN` or
`±Infinity` — reads `undefined` (`none`). -/
noncomputable def jsColorsGet : JSVal → Option (ℤ × ℤ × ℤ)
  | .num x =>
    if x = 0 then some (255, 0, 255)
    else if x = 1 then some (0, 255, 255)
    else if x = 2 then some (157, 0, 255)
    else if x = 3 then some (0, 102, 255)
    else if x = 4 then some (255, 0, 128)
    else if x = 5 then some (0, 200, 255)
    else if x = 6 then some (200, 0, 255)
    else if x = 7 then some (0, 150, 255)
    else none
  | _ => none

/-- The cosine interpolation shared by both copies: given the two palette
entries and the fractional part `t`, produce the rounded channel triple.
`none` models a non-finite channel. -/
noncomputable def jsInterpolate (c1 c2 : ℤ × ℤ × ℤ) (t : JSVal) : Option (ℤ × ℤ × ℤ) :=
  let factor := jsDiv (jsSub (.num 1) (jsCos (jsMul t (.num Real.pi)))) (.num 2)
  match jsRound (jsAdd (.num (c1.1 : ℝ)) (jsMul (jsSub (.num (c2.1 : ℝ)) (.num (c1.1 : ℝ))) factor)),
        jsRound (jsAdd (.num (c1.2.1 : ℝ)) (jsMul (jsSub (.num (c2.2.1 : ℝ)) (.num (c1.2.1 : ℝ))) factor)),
        jsRound (jsAdd (.num (c1.2.2 : ℝ)) (jsMul (jsSub (.num (c2.2.2 : ℝ)) (.num (c1.2.2 : ℝ))) factor)) with
  | some r, some g, some b => some (r, g, b)
  | _, _, _ => none

open Classical in
/-- The palette lookup-and-blend tail shared by both copies: read
`COLORS[colorIndex]` and `COLORS[nextColorIndex]`; when both reads are
defined, cosine-interpolate them at `t`; otherwise the unguarded copy
dereferences `undefined` (`fb = none`, a thrown `TypeError`) while the
guarded copy returns its `[255, 0, 255]` fallback (`fb = some _`). -/
noncomputable def paletteBlend (ci ni t : JSVal) (fb : Option (ℤ × ℤ × ℤ)) :
    Option (ℤ × ℤ × ℤ) :=
  match jsColorsGet ci, jsColorsGet ni with
  | some c1, some c2 => jsInterpolate c1 c2 t
  | _, _ => fb

open Classical in
/-- The first (unguarded) `getColor` copy of `src/unnamed/part_010`
(lines 13-39):
`smoothed = iteration + 1 - log2(log2(iteration + 1))`,
`colorScale = (smoothed / maxIterations) * (COLORS.length - 1) * 4`,
`colorIndex = floor(colorScale) % 8`, `nextColorIndex = (colorIndex + 1) % 8`,
`t = colorScale - floor(colorScale)`, cosine interpolation.  `none` models a
thrown `TypeError` (palette entry `undefined`) or a non-finite channel. -/
noncomputable def getColorUnguarded (iteration maxIterations : ℕ) : Option (ℤ × ℤ × ℤ) :=
  if iteration = maxIterations then some (0, 0, 0)
  else
    let smoothed := jsSub (.num ((iteration : ℝ) + 1))
      (jsLog2 (jsLog2 (.num ((iteration : ℝ) + 1))))
    let colorScale :=
      jsMul (jsMul (jsDiv smoothed (.num (maxIterations : ℝ))) (.num 7)) (.num 4)
    let colorIndex := jsMod (jsFloor colorScale) (.num 8)
    let nextColorIndex := jsMod (jsAdd colorIndex (.num 1)) (.num 8)
    let t := jsSub colorScale (jsFloor colorScale)
    paletteBlend colorIndex nextColorIndex t none

open Classical in
/-- The second (guarded) `getColor` copy of `src/unnamed/part_010`
(lines 66-100): `logVal = max(1, iteration + 1)`, `innerLog = log2(logVal)`,
`smoothed = iteration + 1 - (innerLog > 0 ? log2(innerLog) : 0)`,
`colorScale = abs(...)`, and the `if (!c1 || !c2) return [255, 0, 255]`
fallback in place of the undefined read. -/
noncomputable def getColorGuarded (iteration maxIterations : ℕ) : Option (ℤ × ℤ × ℤ) :=
  if iteration = maxIterations then some (0, 0, 0)
  else
    let logVal := jsMax (.num 1) (.num ((iteration : ℝ) + 1))
    let innerLog := jsLog2 logVal
    let smoothed := jsSub (.num ((iteration : ℝ) + 1))
      (if jsGtZero innerLog then jsLog2 innerLog else .num 0)
    let colorScale :=
      jsAbs (jsMul (jsMul (jsDiv smoothed (.num (maxIterations : ℝ))) (.num 7)) (.num 4))
    let colorIndex := jsMod (jsFloor colorScale) (.num 8)
    let nextColorIndex := jsMod (jsAdd colorIndex (.num 1)) (.num 8)
    let t := jsSub colorScale (jsFloor colorScale)
    paletteBlend colorIndex nextColorIndex t (some (255, 0, 255))

/-! ## Theorems -/

/-- C1: for the pixel `c = (1.5, 0)` with the genuine reference orbit of the
point `(2, 0)` (escape index 2) and `maxIterations = 3`, the two-phase
shader path reports the pixel as not escaped with iteration 3 (rendered as
bounded/black), while plain direct iteration escapes at iteration 2: the
orbit-exhaustion fallback resumes from the stale `z` of the previous pass
and misses the escape. -/
theorem shaderMandel_disagrees_with_direct :
    shaderMandel (fun i => (computeReferenceOrbitHook 2 0 3).1.getD i (0, 0))
      (computeReferenceOrbitHook 2 0 3).2 3 (0, 0) (3/2, 0) (2, 0) = (3, false) ∧
    mandelPlain (3/2) 0 3 = 2 ∧ mandelPlain (3/2) 0 3 < 3 ∧
    computeReferenceOrbitHook 2 0 3 = ([(0, 0), (2, 0), (6, 0)], 2) := by
  norm_num [shaderMandel, shaderP1, shaderP2, computeReferenceOrbitHook, refOrbitGo,
    mandelPlain, plainGo, List.getD]

/-- One non-breaking, non-refreshing pass of the worker loop, for driving
concrete evaluations one step at a time. -/
theorem optGo_step_advance (x0 y0 : ℚ) (maxI fuel fuel' : ℕ) (s : OptState)
    (hf : fuel = fuel' + 1)
    (h1 : s.x2 + s.y2 ≤ 4) (h2 : s.iter < maxI)
    (h3 : ¬(s.x2 - s.y2 + x0 = s.xOld ∧ 2 * s.x * s.y + y0 = s.yOld))
    (h4 : s.period + 1 ≤ 20) :
    optGo x0 y0 maxI fuel s =
      optGo x0 y0 maxI fuel'
        ⟨s.x2 - s.y2 + x0, 2 * s.x * s.y + y0,
         (s.x2 - s.y2 + x0) * (s.x2 - s.y2 + x0),
         (2 * s.x * s.y + y0) * (2 * s.x * s.y + y0),
         s.xOld, s.yOld, s.period + 1, s.iter + 1⟩ := by
  subst hf
  conv_lhs => rw [optGo]
  rw [if_pos ⟨h1, h2⟩, if_neg h3, if_neg (by omega : ¬ 20 < s.period + 1)]

/-- One pass of the worker loop in which the `period > 20` checkpoint
refresh fires. -/
theorem optGo_step_refresh (x0 y0 : ℚ) (maxI fuel fuel' : ℕ) (s : OptState)
    (hf : fuel = fuel' + 1)
    (h1 : s.x2 + s.y2 ≤ 4) (h2 : s.iter < maxI)
    (h3 : ¬(s.x2 - s.y2 + x0 = s.xOld ∧ 2 * s.x * s.y + y0 = s.yOld))
    (h4 : 20 < s.period + 1) :
    optGo x0 y0 maxI fuel s =
      optGo x0 y0 maxI fuel'
        ⟨s.x2 - s.y2 + x0, 2 * s.x * s.y + y0,
         (s.x2 - s.y2 + x0) * (s.x2 - s.y2 + x0),
         (2 * s.x * s.y + y0) * (2 * s.x * s.y + y0),
         s.x2 - s.y2 + x0, 2 * s.x * s.y + y0, 0, s.iter + 1⟩ := by
  subst hf
  conv_lhs => rw [optGo]
  rw [if_pos ⟨h1, h2⟩, if_neg h3, if_pos h4]

/-- The pass of the worker loop in which the periodicity short-circuit
fires (`iter = maxIterations; break`). -/
theorem optGo_step_break (x0 y0 : ℚ) (maxI fuel fuel' : ℕ) (s : OptState)
    (hf : fuel = fuel' + 1)
    (h1 : s.x2 + s.y2 ≤ 4) (h2 : s.iter < maxI)
    (h3 : s.x2 - s.y2 + x0 = s.xOld ∧ 2 * s.x * s.y + y0 = s.yOld) :
    optGo x0 y0 maxI fuel s =
      ⟨s.x2 - s.y2 + x0, 2 * s.x * s.y + y0,
       (s.x2 - s.y2 + x0) * (s.x2 - s.y2 + x0),
       (2 * s.x * s.y + y0) * (2 * s.x * s.y + y0),
       s.xOld, s.yOld, s.period, maxI⟩ := by
  subst hf
  conv_lhs => rw [optGo]
  rw [if_pos ⟨h1, h2⟩, if_pos h3]

/-- When the while condition fails the worker loop returns its state. -/
theorem optGo_step_stop (x0 y0 : ℚ) (maxI : ℕ) (s : OptState)
    (h : ¬ (s.x2 + s.y2 ≤ 4 ∧ s.iter < maxI)) :
    ∀ fuel, optGo x0 y0 maxI fuel s = s := by
  intro fuel
  cases fuel with
  | zero => rfl
  | succ fuel => rw [optGo, if_neg h]

/-- One pass of the plain escape-time loop. -/
theorem plainGo_step_advance (x0 y0 : ℚ) (maxI fuel fuel' : ℕ) (x y : ℚ) (iter : ℕ)
    (hf : fuel = fuel' + 1) (h : x * x + y * y ≤ 4 ∧ iter < maxI) :
    plainGo x0 y0 maxI fuel x y iter =
      plainGo x0 y0 maxI fuel' (x * x - y * y + x0) (2 * x * y + y0) (iter + 1) := by
  subst hf
  rw [plainGo, if_pos h]

/-- When the while condition fails the plain loop returns its counter. -/
theorem plainGo_step_stop (x0 y0 : ℚ) (maxI : ℕ) (x y : ℚ) (iter : ℕ)
    (h : ¬ (x * x + y * y ≤ 4 ∧ iter < maxI)) :
    ∀ fuel, plainGo x0 y0 maxI fuel x y iter = iter := by
  intro fuel
  cases fuel with
  | zero => rfl
  | succ fuel => rw [plainGo, if_neg h]

/-- Once the orbit returns to an earlier value, it is periodic from there
on. -/
theorem orbitQ_shift_periodic (x0 y0 : ℚ) (m p : ℕ)
    (hp : orbitQ x0 y0 (m + p) = orbitQ x0 y0 m) :
    ∀ d, orbitQ x0 y0 (m + d + p) = orbitQ x0 y0 (m + d) := by
  intro d
  induction d with
  | zero => simpa using hp
  | succ d ih =>
    calc orbitQ x0 y0 (m + (d + 1) + p)
        = stepQ x0 y0 (orbitQ x0 y0 (m + d + p)) := by
          rw [show m + (d + 1) + p = (m + d + p) + 1 from by omega]; rfl
      _ = stepQ x0 y0 (orbitQ x0 y0 (m + d)) := by rw [ih]
      _ = orbitQ x0 y0 (m + (d + 1)) := by
          rw [show m + (d + 1) = (m + d) + 1 from by omega]; rfl

/-- If the orbit revisits an earlier value and every value seen before the
revisit is inside the bailout radius, the whole orbit stays inside it: an
exact repeat certifies the point bounded. -/
theorem orbitQ_bounded_of_return (x0 y0 : ℚ) (m n : ℕ) (hmn : m < n)
    (hret : orbitQ x0 y0 n = orbitQ x0 y0 m)
    (hb : ∀ i, i < n → normSq (orbitQ x0 y0 i) ≤ 4) :
    ∀ k, normSq (orbitQ x0 y0 k) ≤ 4 := by
  have hper : ∀ d, orbitQ x0 y0 (m + d + (n - m)) = orbitQ x0 y0 (m + d) :=
    orbitQ_shift_periodic x0 y0 m (n - m)
      (by rw [show m + (n - m) = n from by omega]; exact hret)
  intro k
  induction k using Nat.strong_induction_on with
  | _ k ih =>
    by_cases hk : k < n
    · exact hb k hk
    · have hrw : orbitQ x0 y0 k = orbitQ x0 y0 (k - (n - m)) := by
        have := hper (k - (n - m) - m)
        rw [show m + (k - (n - m) - m) + (n - m) = k from by omega,
            show m + (k - (n - m) - m) = k - (n - m) from by omega] at this
        exact this
      rw [hrw]
      exact ih (k - (n - m)) (by omega)

/-- On a point whose whole orbit stays inside the bailout radius, the plain
loop runs to `maxIterations` and reports it bounded. -/
theorem plainGo_bounded (x0 y0 : ℚ) (maxI : ℕ)
    (hb : ∀ k, normSq (orbitQ x0 y0 k) ≤ 4) :
    ∀ fuel k, fuel + k = maxI →
      plainGo x0 y0 maxI fuel (orbitQ x0 y0 k).1 (orbitQ x0 y0 k).2 k = maxI := by
  intro fuel
  induction fuel with
  | zero =>
    intro k hk
    rw [plainGo]
    omega
  | succ fuel ih =>
    intro k hk
    rw [plainGo_step_advance x0 y0 maxI (fuel + 1) fuel _ _ k rfl
      ⟨by simpa [normSq] using hb k, by omega⟩]
    exact ih (k + 1) (by omega)

/-- The worker's optimized loop computes the same final iteration count as
the plain loop.  The proof simulates both loops in lockstep; when the
periodicity short-circuit fires, the revisit certifies the orbit bounded
(`orbitQ_bounded_of_return`), so the plain loop also reports
`maxIterations`. -/
theorem optGo_simulates_plain (x0 y0 : ℚ) (maxI : ℕ) :
    ∀ fuel k m (s : OptState),
      s.x = (orbitQ x0 y0 k).1 → s.y = (orbitQ x0 y0 k).2 →
      s.x2 = s.x * s.x → s.y2 = s.y * s.y → s.iter = k →
      s.xOld = (orbitQ x0 y0 m).1 → s.yOld = (orbitQ x0 y0 m).2 → m ≤ k →
      fuel + k = maxI → (∀ i, i < k → normSq (orbitQ x0 y0 i) ≤ 4) →
      (optGo x0 y0 maxI fuel s).iter = plainGo x0 y0 maxI fuel s.x s.y k := by
  intro fuel
  induction fuel with
  | zero =>
    intro k m s _ _ _ _ hiter _ _ _ _ _
    rw [plainGo]
    exact hiter
  | succ fuel ih =>
    intro k m s hx hy hx2 hy2 hiter hxo hyo hmk hfuel hb
    by_cases hc : s.x2 + s.y2 ≤ 4 ∧ s.iter < maxI
    · have hplainc : s.x * s.x + s.y * s.y ≤ 4 ∧ k < maxI := by
        rw [← hx2, ← hy2, ← hiter]; exact hc
      have hxstep : s.x2 - s.y2 + x0 = (orbitQ x0 y0 (k + 1)).1 := by
        rw [hx2, hy2, hx, hy]; rfl
      have hystep : 2 * s.x * s.y + y0 = (orbitQ x0 y0 (k + 1)).2 := by
        rw [hx, hy]; rfl
      have hbound_k : normSq (orbitQ x0 y0 k) ≤ 4 := by
        have := hc.1
        rw [hx2, hy2, hx, hy] at this
        simpa [normSq] using this
      have hb' : ∀ i, i < k + 1 → normSq (orbitQ x0 y0 i) ≤ 4 := by
        intro i hi
        rcases Nat.lt_succ_iff_lt_or_eq.mp hi with hi | rfl
        · exact hb i hi
        · exact hbound_k
      rw [plainGo_step_advance x0 y0 maxI (fuel + 1) fuel s.x s.y k rfl hplainc,
        show s.x * s.x - s.y * s.y + x0 = s.x2 - s.y2 + x0 from by rw [hx2, hy2]]
      by_cases heq : s.x2 - s.y2 + x0 = s.xOld ∧ 2 * s.x * s.y + y0 = s.yOld
      · -- the periodicity short-circuit fires: the orbit revisits Z_m
        have hret : orbitQ x0 y0 (k + 1) = orbitQ x0 y0 m := by
          have h1 := heq.1
          have h2 := heq.2
          rw [hxstep, hxo] at h1
          rw [hystep, hyo] at h2
          exact Prod.ext h1 h2
        have hball : ∀ j, normSq (orbitQ x0 y0 j) ≤ 4 :=
          orbitQ_bounded_of_return x0 y0 m (k + 1) (by omega) hret hb'
        rw [optGo_step_break x0 y0 maxI (fuel + 1) fuel s rfl hc.1 hc.2 heq]
        have := plainGo_bounded x0 y0 maxI hball fuel (k + 1) (by omega)
        rw [← hxstep, ← hystep] at this
        exact this.symm
      · by_cases hper : 20 < s.period + 1
        · rw [optGo_step_refresh x0 y0 maxI (fuel + 1) fuel s rfl hc.1 hc.2 heq hper]
          have := ih (k + 1) (k + 1)
            ⟨s.x2 - s.y2 + x0, 2 * s.x * s.y + y0,
             (s.x2 - s.y2 + x0) * (s.x2 - s.y2 + x0),
             (2 * s.x * s.y + y0) * (2 * s.x * s.y + y0),
             s.x2 - s.y2 + x0, 2 * s.x * s.y + y0, 0, s.iter + 1⟩
            hxstep hystep rfl rfl (by rw [hiter]) hxstep hystep (le_refl _)
            (by omega) hb'
          simpa using this
        · rw [optGo_step_advance x0 y0 maxI (fuel + 1) fuel s rfl hc.1 hc.2 heq
            (by omega)]
          have := ih (k + 1) m
            ⟨s.x2 - s.y2 + x0, 2 * s.x * s.y + y0,
             (s.x2 - s.y2 + x0) * (s.x2 - s.y2 + x0),
             (2 * s.x * s.y + y0) * (2 * s.x * s.y + y0),
             s.xOld, s.yOld, s.period + 1, s.iter + 1⟩
            hxstep hystep rfl rfl (by rw [hiter]) hxo hyo (by omega)
            (by omega) hb'
          simpa using this
    · have hplainc : ¬ (s.x * s.x + s.y * s.y ≤ 4 ∧ k < maxI) := by
        rw [← hx2, ← hy2, ← hiter]; exact hc
      rw [optGo_step_stop x0 y0 maxI s hc, plainGo_step_stop x0 y0 maxI s.x s.y k hplainc]
      exact hiter

/-- C2 amended: the worker's optimized mandelbrot loop — cardioid-free inner
loop with periodicity detection, checkpoint refreshed every 21 iterations
(when the `period` counter exceeds 20) — reports exactly the same iteration
count as the plain unoptimized escape-time loop on every input: in
particular it never alters the count of an escaping point, and the
short-circuit fires only for points the plain loop also reports bounded. -/
theorem mandelOpt_eq_mandelPlain (x0 y0 : ℚ) (maxI : ℕ) :
    mandelOpt x0 y0 maxI = mandelPlain x0 y0 maxI := by
  unfold mandelOpt mandelPlain
  have := optGo_simulates_plain x0 y0 maxI maxI 0 0 optInit rfl rfl
    (by norm_num [optInit]) (by norm_num [optInit]) rfl rfl rfl
    (le_refl 0) (by omega) (fun i hi => absurd hi (Nat.not_lt_zero i))
  simpa [optInit] using this

/-- C2 counterexample: on input `(-2, 0)` the worker loop's checkpoint
`(xOld, yOld)` still holds its initial value `(0, 0)` after 20 iterations —
at which point the current point is `(2, 0) ≠ (0, 0)` — and is first
refreshed at iteration 21 (the `period > 20` reset), contradicting the
claim that the checkpoint is refreshed every 20 iterations. -/
theorem optGo_checkpoint_not_refreshed_at_20 :
    ((optGo (-2) 0 20 20 optInit).xOld, (optGo (-2) 0 20 20 optInit).yOld) = (0, 0) ∧
    ((optGo (-2) 0 20 20 optInit).x, (optGo (-2) 0 20 20 optInit).y) = (2, 0) ∧
    ((optGo (-2) 0 21 21 optInit).xOld, (optGo (-2) 0 21 21 optInit).yOld) = (2, 0) := by
  have hA : optGo (-2) 0 20 20 optInit = ⟨2, 0, 4, 0, 0, 0, 20, 20⟩ := by
    rw [optGo_step_advance (-2) 0 20 20 19 optInit rfl (by norm_num [optInit])
      (by norm_num [optInit]) (by norm_num [optInit]) (by norm_num [optInit])]
    norm_num [optInit]
    rw [optGo_step_advance (-2) 0 20 19 18 ⟨-2, 0, 4, 0, 0, 0, 1, 1⟩ rfl (by norm_num)
      (by norm_num) (by norm_num) (by norm_num)]
    norm_num
    rw [optGo_step_advance (-2) 0 20 18 17 ⟨2, 0, 4, 0, 0, 0, 2, 2⟩ rfl (by norm_num)
      (by norm_num) (by norm_num) (by norm_num)]
    norm_num
    rw [optGo_step_advance (-2) 0 20 17 16 ⟨2, 0, 4, 0, 0, 0, 3, 3⟩ rfl (by norm_num)
      (by norm_num) (by norm_num) (by norm_num)]
    norm_num
    rw [optGo_step_advance (-2) 0 20 16 15 ⟨2, 0, 4, 0, 0, 0, 4, 4⟩ rfl (by norm_num)
      (by norm_num) (by norm_num) (by norm_num)]
    norm_num
    rw [optGo_step_advance (-2) 0 20 15 14 ⟨2, 0, 4, 0, 0, 0, 5, 5⟩ rfl (by norm_num)
      (by norm_num) (by norm_num) (by norm_num)]
    norm_num
    rw [optGo_step_advance (-2) 0 20 14 13 ⟨2, 0, 4, 0, 0, 0, 6, 6⟩ rfl (by norm_num)
      (by norm_num) (by norm_num) (by norm_num)]
    norm_num
    rw [optGo_step_advance (-2) 0 20 13 12 ⟨2, 0, 4, 0, 0, 0, 7, 7⟩ rfl (by norm_num)
      (by norm_num) (by norm_num) (by norm_num)]
    norm_num
    rw [optGo_step_advance (-2) 0 20 12 11 ⟨2, 0, 4, 0, 0, 0, 8, 8⟩ rfl (by norm_num)
      (by norm_num) (by norm_num) (by norm_num)]
    norm_num
    rw [optGo_step_advance (-2) 0 20 11 10 ⟨2, 0, 4, 0, 0, 0, 9, 9⟩ rfl (by norm_num)
      (by norm_num) (by norm_num) (by norm_num)]
    norm_num
    rw [optGo_step_advance (-2) 0 20 10 9 ⟨2, 0, 4, 0, 0, 0, 10, 10⟩ rfl (by norm_num)
      (by norm_num) (by norm_num) (by norm_num)]
    norm_num
    rw [optGo_step_advance (-2) 0 20 9 8 ⟨2, 0, 4, 0, 0, 0, 11, 11⟩ rfl (by norm_num)
      (by norm_num) (by norm_num) (by norm_num)]
    norm_num
    rw [optGo_step_advance (-2) 0 20 8 7 ⟨2, 0, 4, 0, 0, 0, 12, 12⟩ rfl (by norm_num)
      (by norm_num) (by norm_num) (by norm_num)]
    norm_num
    rw [optGo_step_advance (-2) 0 20 7 6 ⟨2, 0, 4, 0, 0, 0, 13, 13⟩ rfl (by norm_num)
      (by norm_num) (by norm_num) (by norm_num)]
    norm_num
    rw [optGo_step_advance (-2) 0 20 6 5 ⟨2, 0, 4, 0, 0, 0, 14, 14⟩ rfl (by norm_num)
      (by norm_num) (by norm_num) (by norm_num)]
    norm_num
    rw [optGo_step_advance (-2) 0 20 5 4 ⟨2, 0, 4, 0, 0, 0, 15, 15⟩ rfl (by norm_num)
      (by norm_num) (by norm_num) (by norm_num)]
    norm_num
    rw [optGo_step_advance (-2) 0 20 4 3 ⟨2, 0, 4, 0, 0, 0, 16, 16⟩ rfl (by norm_num)
      (by norm_num) (by norm_num) (by norm_num)]
    norm_num
    rw [optGo_step_advance (-2) 0 20 3 2 ⟨2, 0, 4, 0, 0, 0, 17, 17⟩ rfl (by norm_num)
      (by norm_num) (by norm_num) (by norm_num)]
    norm_num
    rw [optGo_step_advance (-2) 0 20 2 1 ⟨2, 0, 4, 0, 0, 0, 18, 18⟩ rfl (by norm_num)
      (by norm_num) (by norm_num) (by norm_num)]
    norm_num
    rw [optGo_step_advance (-2) 0 20 1 0 ⟨2, 0, 4, 0, 0, 0, 19, 19⟩ rfl (by norm_num)
      (by norm_num) (by norm_num) (by norm_num)]
    norm_num
    simp only [optGo]
  have hB : optGo (-2) 0 21 21 optInit = ⟨2, 0, 4, 0, 2, 0, 0, 21⟩ := by
    rw [optGo_step_advance (-2) 0 21 21 20 optInit rfl (by norm_num [optInit])
      (by norm_num [optInit]) (by norm_num [optInit]) (by norm_num [optInit])]
    norm_num [optInit]
    rw [optGo_step_advance (-2) 0 21 20 19 ⟨-2, 0, 4, 0, 0, 0, 1, 1⟩ rfl (by norm_num)
      (by norm_num) (by norm_num) (by norm_num)]
    norm_num
    rw [optGo_step_advance (-2) 0 21 19 18 ⟨2, 0, 4, 0, 0, 0, 2, 2⟩ rfl (by norm_num)
      (by norm_num) (by norm_num) (by norm_num)]
    norm_num
    rw [optGo_step_advance (-2) 0 21 18 17 ⟨2, 0, 4, 0, 0, 0, 3, 3⟩ rfl (by norm_num)
      (by norm_num) (by norm_num) (by norm_num)]
    norm_num
    rw [optGo_step_advance (-2) 0 21 17 16 ⟨2, 0, 4, 0, 0, 0, 4, 4⟩ rfl (by norm_num)
      (by norm_num) (by norm_num) (by norm_num)]
    norm_num
    rw [optGo_step_advance (-2) 0 21 16 15 ⟨2, 0, 4, 0, 0, 0, 5, 5⟩ rfl (by norm_num)
      (by norm_num) (by norm_num) (by norm_num)]
    norm_num
    rw [optGo_step_advance (-2) 0 21 15 14 ⟨2, 0, 4, 0, 0, 0, 6, 6⟩ rfl (by norm_num)
      (by norm_num) (by norm_num) (by norm_num)]
    norm_num
    rw [optGo_step_advance (-2) 0 21 14 13 ⟨2, 0, 4, 0, 0, 0, 7, 7⟩ rfl (by norm_num)
      (by norm_num) (by norm_num) (by norm_num)]
    norm_num
    rw [optGo_step_advance (-2) 0 21 13 12 ⟨2, 0, 4, 0, 0, 0, 8, 8⟩ rfl (by norm_num)
      (by norm_num) (by norm_num) (by norm_num)]
    norm_num
    rw [optGo_step_advance (-2) 0 21 12 11 ⟨2, 0, 4, 0, 0, 0, 9, 9⟩ rfl (by norm_num)
      (by norm_num) (by norm_num) (by norm_num)]
    norm_num
    rw [optGo_step_advance (-2) 0 21 11 10 ⟨2, 0, 4, 0, 0, 0, 10, 10⟩ rfl (by norm_num)
      (by norm_num) (by norm_num) (by norm_num)]
    norm_num
    rw [optGo_step_advance (-2) 0 21 10 9 ⟨2, 0, 4, 0, 0, 0, 11, 11⟩ rfl (by norm_num)
      (by norm_num) (by norm_num) (by norm_num)]
    norm_num
    rw [optGo_step_advance (-2) 0 21 9 8 ⟨2, 0, 4, 0, 0, 0, 12, 12⟩ rfl (by norm_num)
      (by norm_num) (by norm_num) (by norm_num)]
    norm_num
    rw [optGo_step_advance (-2) 0 21 8 7 ⟨2, 0, 4, 0, 0, 0, 13, 13⟩ rfl (by norm_num)
      (by norm_num) (by norm_num) (by norm_num)]
    norm_num
    rw [optGo_step_advance (-2) 0 21 7 6 ⟨2, 0, 4, 0, 0, 0, 14, 14⟩ rfl (by norm_num)
      (by norm_num) (by norm_num) (by norm_num)]
    norm_num
    rw [optGo_step_advance (-2) 0 21 6 5 ⟨2, 0, 4, 0, 0, 0, 15, 15⟩ rfl (by norm_num)
      (by norm_num) (by norm_num) (by norm_num)]
    norm_num
    rw [optGo_step_advance (-2) 0 21 5 4 ⟨2, 0, 4, 0, 0, 0, 16, 16⟩ rfl (by norm_num)
      (by norm_num) (by norm_num) (by norm_num)]
    norm_num
    rw [optGo_step_advance (-2) 0 21 4 3 ⟨2, 0, 4, 0, 0, 0, 17, 17⟩ rfl (by norm_num)
      (by norm_num) (by norm_num) (by norm_num)]
    norm_num
    rw [optGo_step_advance (-2) 0 21 3 2 ⟨2, 0, 4, 0, 0, 0, 18, 18⟩ rfl (by norm_num)
      (by norm_num) (by norm_num) (by norm_num)]
    norm_num
    rw [optGo_step_advance (-2) 0 21 2 1 ⟨2, 0, 4, 0, 0, 0, 19, 19⟩ rfl (by norm_num)
      (by norm_num) (by norm_num) (by norm_num)]
    norm_num
    rw [optGo_step_refresh (-2) 0 21 1 0 ⟨2, 0, 4, 0, 0, 0, 20, 20⟩ rfl (by norm_num)
      (by norm_num) (by norm_num) (by norm_num)]
    norm_num
    simp only [optGo]
  rw [hA, hB]
  exact ⟨rfl, rfl, rfl⟩


/-- C3: a point satisfying the main-cardioid inequality
`q*(q + (x0 - 0.25)) ≤ 0.25*y0²` (with `q = (x0-0.25)² + y0²`) or the
period-2 bulb inequality `(x0+1)² + y0² ≤ 0.0625` is reported bounded by the
worker: it stores `maxIterations` for that pixel, for every
`maxIterations`. -/
theorem workerPixel_bounded_of_cardioid_or_bulb (x0 y0 : ℚ) (maxI : ℕ)
    (h : ((x0 - 1/4) * (x0 - 1/4) + y0 * y0) *
          (((x0 - 1/4) * (x0 - 1/4) + y0 * y0) + (x0 - 1/4)) ≤ 1/4 * (y0 * y0) ∨
         (x0 + 1) * (x0 + 1) + y0 * y0 ≤ 1/16) :
    workerPixel x0 y0 maxI = maxI := by
  unfold workerPixel
  rcases h with h | h
  · rw [if_pos h]
  · by_cases h1 : ((x0 - 1/4) * (x0 - 1/4) + y0 * y0) *
        (((x0 - 1/4) * (x0 - 1/4) + y0 * y0) + (x0 - 1/4)) ≤ 1/4 * (y0 * y0)
    · rw [if_pos h1]
    · rw [if_neg h1, if_pos h]

/-- C3 witness: the origin satisfies the cardioid inequality and the worker
stores `maxIterations = 7` for it. -/
theorem workerPixel_bounded_witness :
    (((0 - 1/4) * ((0 : ℚ) - 1/4) + 0 * 0) *
       (((0 - 1/4) * ((0 : ℚ) - 1/4) + 0 * 0) + (0 - 1/4)) ≤ 1/4 * ((0 : ℚ) * 0) ∨
     ((0 : ℚ) + 1) * (0 + 1) + 0 * 0 ≤ 1/16) ∧
    workerPixel 0 0 7 = 7 :=
  ⟨Or.inl (by norm_num), workerPixel_bounded_of_cardioid_or_bulb 0 0 7 (Or.inl (by norm_num))⟩

/-- C4 counterexample: for the reference point `(2, 0)` with
`maxIterations = 4`, the `computeReferenceOrbit` copy that records
`escapeIteration` (useWebGLMandelbrot.ts) leaves the recording phase at
index 2 because it tests `|Z|² > 4` (bailout radius 2), whereas the claimed
extended-bailout rule `|Z|² > 256` would first fire at index 3; the copy
that does use the extended bailout 256 (part_011) records past index 2 but
returns no escape iteration. -/
theorem computeReferenceOrbit_bailout_counterexample :
    (computeReferenceOrbitHook 2 0 4).2 = 2 ∧
    claimedEscapeIterExt 2 0 4 = 3 ∧
    (2 : ℕ) ≠ 3 ∧
    (computeReferenceOrbitHook 2 0 4).1 = [(0, 0), (2, 0), (6, 0), (6, 0)] ∧
    computeReferenceOrbitExt 2 0 4 = [(0, 0), (2, 0), (6, 0), (38, 0)] := by
  norm_num [computeReferenceOrbitHook, computeReferenceOrbitExt, refOrbitGo,
    claimedEscapeIterExt, normSq, orbitQ, stepQ, List.range_succ, List.replicate]

/-- Reading a replicated list inside its length gives the replicated
element. -/
theorem replicate_getD (n j : ℕ) (a d : ℚ × ℚ) (h : j < n) :
    (List.replicate n a).getD j d = a := by
  induction n generalizing j with
  | zero => omega
  | succ n ih =>
    cases j with
    | zero => simp [List.replicate]
    | succ j => simpa [List.replicate] using ih j (by omega)

/-- Full characterisation of the recording loop `refOrbitGo`, for any bailout
threshold: started at index `i` on the true orbit value `Z_i`, it returns a
list of exactly `fuel` entries whose `j`-th entry is `Z_(min (i+j) e)` —
the true orbit up to the escape index `e`, the escape value repeated after —
where `e` is the first index at which `|Z|² > bail` (and `i + fuel`, i.e.
`maxIter`, when there is none). -/
theorem refOrbitGo_correct (cr ci bail : ℚ) (fuel : ℕ) : ∀ i,
    (refOrbitGo cr ci bail fuel i (orbitQ cr ci i)).1.length = fuel ∧
    i ≤ (refOrbitGo cr ci bail fuel i (orbitQ cr ci i)).2 ∧
    (refOrbitGo cr ci bail fuel i (orbitQ cr ci i)).2 ≤ i + fuel ∧
    (∀ j, j < fuel → (refOrbitGo cr ci bail fuel i (orbitQ cr ci i)).1.getD j (0, 0) =
        orbitQ cr ci (min (i + j) (refOrbitGo cr ci bail fuel i (orbitQ cr ci i)).2)) ∧
    ((refOrbitGo cr ci bail fuel i (orbitQ cr ci i)).2 < i + fuel →
        bail < normSq (orbitQ cr ci (refOrbitGo cr ci bail fuel i (orbitQ cr ci i)).2)) ∧
    (∀ t, i ≤ t → t < (refOrbitGo cr ci bail fuel i (orbitQ cr ci i)).2 →
        normSq (orbitQ cr ci t) ≤ bail) := by
  induction fuel with
  | zero =>
    intro i
    exact ⟨rfl, le_refl _, le_of_eq rfl,
      fun j hj => absurd hj (Nat.not_lt_zero j),
      fun hlt => absurd hlt (lt_irrefl _),
      fun t ht1 ht2 => absurd ht2 (Nat.not_lt.mpr ht1)⟩
  | succ fuel ih =>
    intro i
    by_cases h : bail < normSq (orbitQ cr ci i)
    · have hrw : refOrbitGo cr ci bail (fuel + 1) i (orbitQ cr ci i) =
          (List.replicate (fuel + 1) (orbitQ cr ci i), i) := by
        rw [refOrbitGo, if_pos (by simpa [normSq] using h)]
      rw [hrw]
      refine ⟨List.length_replicate _ _, le_refl _, by omega, ?_, ?_, ?_⟩
      · intro j hj
        rw [replicate_getD _ _ _ _ hj]
        congr 1
        omega
      · intro _; exact h
      · intro t ht1 ht2; omega
    · have hrw : refOrbitGo cr ci bail (fuel + 1) i (orbitQ cr ci i) =
          ((orbitQ cr ci i) :: (refOrbitGo cr ci bail fuel (i + 1) (orbitQ cr ci (i + 1))).1,
           (refOrbitGo cr ci bail fuel (i + 1) (orbitQ cr ci (i + 1))).2) := by
        rw [refOrbitGo, if_neg (by simpa [normSq] using h)]
        rfl
      rw [hrw]
      obtain ⟨hL, hle, hub, hget, hesc, hbnd⟩ := ih (i + 1)
      refine ⟨by simp [hL], by omega, by omega, ?_, ?_, ?_⟩
      · intro j hj
        cases j with
        | zero =>
          simp only [List.getD_cons_zero]
          congr 1
          omega
        | succ j =>
          simp only [List.getD_cons_succ]
          rw [hget j (by omega)]
          congr 1
          omega
      · intro hlt; exact hesc (by omega)
      · intro t ht1 ht2
        rcases eq_or_lt_of_le ht1 with rfl | ht
        · exact le_of_not_lt h
        · exact hbnd t (by omega) ht2

/-- C4 amended: both `computeReferenceOrbit` copies iterate the reference
point with the plain `z ← z² + c` rule recording every `Z_i`; on escape at
index `k` the remaining slots are a repeat of the escape value, and the
recorded `escapeIteration` is the first escape index (`maxIter` when the
point never escapes within the recorded range).  The copy that records
`escapeIteration` (`useWebGLMandelbrot.ts`) uses the visible-palette bailout
radius 2 (`|Z|² > 4`); the copy using the extended bailout radius 16
(`|Z|² > 256`, `src/unnamed/part_011`) records no escape iteration. -/
theorem computeReferenceOrbit_spec (cr ci : ℚ) (maxI : ℕ) :
    ((computeReferenceOrbitHook cr ci maxI).1.length = maxI ∧
     (computeReferenceOrbitHook cr ci maxI).2 ≤ maxI ∧
     (∀ j, j < maxI → (computeReferenceOrbitHook cr ci maxI).1.getD j (0, 0) =
         orbitQ cr ci (min j (computeReferenceOrbitHook cr ci maxI).2)) ∧
     ((computeReferenceOrbitHook cr ci maxI).2 < maxI →
         4 < normSq (orbitQ cr ci (computeReferenceOrbitHook cr ci maxI).2)) ∧
     (∀ t, t < (computeReferenceOrbitHook cr ci maxI).2 →
         normSq (orbitQ cr ci t) ≤ 4)) ∧
    ((computeReferenceOrbitExt cr ci maxI).length = maxI ∧
     (refOrbitGo cr ci 256 maxI 0 (0, 0)).2 ≤ maxI ∧
     (∀ j, j < maxI → (computeReferenceOrbitExt cr ci maxI).getD j (0, 0) =
         orbitQ cr ci (min j (refOrbitGo cr ci 256 maxI 0 (0, 0)).2)) ∧
     ((refOrbitGo cr ci 256 maxI 0 (0, 0)).2 < maxI →
         256 < normSq (orbitQ cr ci (refOrbitGo cr ci 256 maxI 0 (0, 0)).2)) ∧
     (∀ t, t < (refOrbitGo cr ci 256 maxI 0 (0, 0)).2 →
         normSq (orbitQ cr ci t) ≤ 256)) := by
  have h0 : (orbitQ cr ci 0) = ((0 : ℚ), (0 : ℚ)) := rfl
  constructor
  · obtain ⟨hL, _, hub, hget, hesc, hbnd⟩ := refOrbitGo_correct cr ci 4 maxI 0
    rw [h0] at hL hub hget hesc hbnd
    exact ⟨hL, by simpa using hub, by simpa using hget, by simpa using hesc,
      fun t ht => hbnd t (by omega) ht⟩
  · obtain ⟨hL, _, hub, hget, hesc, hbnd⟩ := refOrbitGo_correct cr ci 256 maxI 0
    rw [h0] at hL hub hget hesc hbnd
    exact ⟨hL, by simpa using hub, by simpa using hget, by simpa using hesc,
      fun t ht => hbnd t (by omega) ht⟩

/-- C4 witness: the characterisation at the concrete counterexample input
`(2, 0)`, `maxIterations = 4`. -/
theorem computeReferenceOrbit_spec_witness :
    (computeReferenceOrbitHook 2 0 4).1.length = 4 ∧
    ((computeReferenceOrbitHook 2 0 4).2 < 4 →
        4 < normSq (orbitQ 2 0 (computeReferenceOrbitHook 2 0 4).2)) ∧
    (computeReferenceOrbitExt 2 0 4).length = 4 :=
  ⟨(computeReferenceOrbit_spec 2 0 4).1.1,
   (computeReferenceOrbit_spec 2 0 4).1.2.2.2.1,
   (computeReferenceOrbit_spec 2 0 4).2.1⟩

/-- C5 counterexample: with view center `(2, 0)`, view width/height 8 and
`maxIterations = 3`, the center escapes at 2 < 80% of 3, so the grid is
probed; the code's grid (offsets scaled by the FULL width) finds the probe
`(-0.25, 0) ↦ (0, 0)` which reaches `maxIterations`, while the claim's grid
(offsets scaled by the half-width) would probe `(1, 0)` instead: the two
return different reference points. -/
theorem findBestReference_grid_counterexample :
    findBestReference 2 0 8 8 3 = ((0, 0), 3) ∧
    findBestReferenceSpecGrid 2 0 8 8 3 = ((1, 0), 3) ∧
    ((0, 0) : ℚ × ℚ) ≠ ((1, 0) : ℚ × ℚ) := by
  norm_num [findBestReference, findBestReferenceSpecGrid, searchGo, searchPoints,
    testEscape, testEscapeGo, Prod.ext_iff]

/-- `testEscape`'s recording loop never reports more than `maxIterations`. -/
theorem testEscapeGo_le (x y : ℚ) (maxI : ℕ) :
    ∀ fuel i z, i + fuel = maxI → testEscapeGo x y maxI fuel i z ≤ maxI := by
  intro fuel
  induction fuel with
  | zero => intro i z _; exact le_refl maxI
  | succ fuel ih =>
    intro i z hif
    rw [testEscapeGo]
    split_ifs
    · omega
    · exact ih (i + 1) _ (by omega)

/-- The escape iteration of any probe is at most `maxIterations`. -/
theorem testEscape_le (x y : ℚ) (maxI : ℕ) : testEscape x y maxI ≤ maxI :=
  testEscapeGo_le x y maxI maxI 0 (0, 0) (by omega)

/-- The base of a fold of maxima bounds the fold from below. -/
theorem le_foldr_max (f : ℚ × ℚ → ℕ) :
    ∀ (l : List (ℚ × ℚ)) (b : ℕ), b ≤ l.foldr (fun d m => max (f d) m) b := by
  intro l
  induction l with
  | nil => intro b; exact le_refl b
  | cons d l ih => intro b; exact le_trans (ih b) (le_max_right _ _)

/-- A fold of maxima is bounded by any common upper bound. -/
theorem foldr_max_le (f : ℚ × ℚ → ℕ) :
    ∀ (l : List (ℚ × ℚ)) (b c : ℕ), b ≤ c → (∀ d ∈ l, f d ≤ c) →
      l.foldr (fun d m => max (f d) m) b ≤ c := by
  intro l
  induction l with
  | nil => intro b c hb _; exact hb
  | cons d l ih =>
    intro b c hb hl
    exact max_le (hl d (List.mem_cons_self d l)) (ih b c hb fun e he => hl e (List.mem_cons_of_mem d he))

/-- A max in the base of a fold of maxima commutes out. -/
theorem foldr_max_base (f : ℚ × ℚ → ℕ) :
    ∀ (l : List (ℚ × ℚ)) (a b : ℕ),
      l.foldr (fun d m => max (f d) m) (max a b) = max a (l.foldr (fun d m => max (f d) m) b) := by
  intro l
  induction l with
  | nil => intro a b; rfl
  | cons d l ih =>
    intro a b
    simp only [List.foldr_cons, ih, max_left_comm]

/-- The probe loop of `findBestReference` returns a probed point (or the
seed), together with its own escape iteration, and that escape iteration is
the maximum over the seed's and all probes' — the early `break` on reaching
`maxIterations` cannot lower the maximum, because no probe exceeds
`maxIterations`. -/
theorem searchGo_correct (cx cy vw vh : ℚ) (maxI : ℕ) :
    ∀ (ds : List (ℚ × ℚ)) (best : (ℚ × ℚ) × ℕ),
      testEscape best.1.1 best.1.2 maxI = best.2 → best.2 ≤ maxI →
      (searchGo cx cy vw vh maxI ds best).2
          = ds.foldr (fun d m => max (testEscape (cx + d.1 * vw) (cy + d.2 * vh) maxI) m) best.2 ∧
      ((searchGo cx cy vw vh maxI ds best).1 = best.1 ∨
        ∃ d ∈ ds, (searchGo cx cy vw vh maxI ds best).1 = (cx + d.1 * vw, cy + d.2 * vh)) ∧
      testEscape (searchGo cx cy vw vh maxI ds best).1.1
          (searchGo cx cy vw vh maxI ds best).1.2 maxI
        = (searchGo cx cy vw vh maxI ds best).2 := by
  intro ds
  induction ds with
  | nil =>
    intro best hbest hle
    exact ⟨rfl, Or.inl rfl, hbest⟩
  | cons d ds ih =>
    intro best hbest hle
    by_cases h1 : best.2 < testEscape (cx + d.1 * vw) (cy + d.2 * vh) maxI
    · by_cases h2 : maxI ≤ testEscape (cx + d.1 * vw) (cy + d.2 * vh) maxI
      · have hrw : searchGo cx cy vw vh maxI (d :: ds) best
            = ((cx + d.1 * vw, cy + d.2 * vh), testEscape (cx + d.1 * vw) (cy + d.2 * vh) maxI) := by
          rw [searchGo, if_pos h1, if_pos h2]
        rw [hrw]
        have hemax : testEscape (cx + d.1 * vw) (cy + d.2 * vh) maxI = maxI :=
          le_antisymm (testEscape_le _ _ _) h2
        refine ⟨?_, Or.inr ⟨d, List.mem_cons_self d ds, rfl⟩, rfl⟩
        simp only [List.foldr_cons]
        rw [max_eq_left]
        exact le_trans (foldr_max_le _ ds best.2 maxI hle fun e _ => testEscape_le _ _ _)
          (by omega)
      · have hrw : searchGo cx cy vw vh maxI (d :: ds) best
            = searchGo cx cy vw vh maxI ds
                ((cx + d.1 * vw, cy + d.2 * vh), testEscape (cx + d.1 * vw) (cy + d.2 * vh) maxI) := by
          rw [searchGo, if_pos h1, if_neg h2]
        rw [hrw]
        obtain ⟨hfold, hmem, hself⟩ := ih ((cx + d.1 * vw, cy + d.2 * vh),
          testEscape (cx + d.1 * vw) (cy + d.2 * vh) maxI) rfl (by omega)
        refine ⟨?_, ?_, hself⟩
        · rw [hfold]
          simp only [List.foldr_cons]
          conv_lhs => rw [show testEscape (cx + d.1 * vw) (cy + d.2 * vh) maxI
              = max (testEscape (cx + d.1 * vw) (cy + d.2 * vh) maxI) best.2 from
              (max_eq_left (le_of_lt h1)).symm]
          rw [foldr_max_base]
        · rcases hmem with h | ⟨e, he, hp⟩
          · exact Or.inr ⟨d, List.mem_cons_self d ds, h⟩
          · exact Or.inr ⟨e, List.mem_cons_of_mem d he, hp⟩
    · have hrw : searchGo cx cy vw vh maxI (d :: ds) best = searchGo cx cy vw vh maxI ds best := by
        rw [searchGo, if_neg h1]
      rw [hrw]
      obtain ⟨hfold, hmem, hself⟩ := ih best hbest hle
      refine ⟨?_, ?_, hself⟩
      · rw [hfold]
        simp only [List.foldr_cons]
        rw [max_eq_right]
        exact le_trans (Nat.le_of_not_lt h1) (le_foldr_max _ ds best.2)
      · rcases hmem with h | ⟨e, he, hp⟩
        · exact Or.inl h
        · exact Or.inr ⟨e, List.mem_cons_of_mem d he, hp⟩

/-- C5 amended: `findBestReference` accepts the view center exactly when its
escape iteration is at least 80% of `maxIterations`; otherwise it returns a
point from the fixed 13-point grid — offsets scaled by the view's FULL
width/height — or the center itself, whichever has the highest escape
iteration (the early stop on reaching `maxIterations` cannot lower that
maximum). -/
theorem findBestReference_spec (cx cy vw vh : ℚ) (maxI : ℕ) :
    ((maxI : ℚ) * (8/10) ≤ (testEscape cx cy maxI : ℚ) →
        findBestReference cx cy vw vh maxI = ((cx, cy), testEscape cx cy maxI)) ∧
    (¬ ((maxI : ℚ) * (8/10) ≤ (testEscape cx cy maxI : ℚ)) →
      (findBestReference cx cy vw vh maxI).2
          = searchPoints.foldr
              (fun d m => max (testEscape (cx + d.1 * vw) (cy + d.2 * vh) maxI) m)
              (testEscape cx cy maxI) ∧
      ((findBestReference cx cy vw vh maxI).1 = (cx, cy) ∨
        ∃ d ∈ searchPoints,
          (findBestReference cx cy vw vh maxI).1 = (cx + d.1 * vw, cy + d.2 * vh)) ∧
      testEscape (findBestReference cx cy vw vh maxI).1.1
          (findBestReference cx cy vw vh maxI).1.2 maxI
        = (findBestReference cx cy vw vh maxI).2) := by
  constructor
  · intro h
    unfold findBestReference
    rw [if_pos h]
  · intro h
    have hrw : findBestReference cx cy vw vh maxI
        = searchGo cx cy vw vh maxI searchPoints ((cx, cy), testEscape cx cy maxI) := by
      unfold findBestReference
      rw [if_neg h]
    rw [hrw]
    exact searchGo_correct cx cy vw vh maxI searchPoints ((cx, cy), testEscape cx cy maxI)
      rfl (testEscape_le cx cy maxI)

/-- C5 witness: the search characterisation at the concrete input of the
counterexample (center `(2,0)`, view 8×8, `maxIterations = 3`, whose center
escape 2 is below 80% of 3). -/
theorem findBestReference_spec_witness :
    ¬ ((3 : ℚ) * (8/10) ≤ (testEscape 2 0 3 : ℚ)) ∧
    (findBestReference 2 0 8 8 3).2
        = searchPoints.foldr
            (fun d m => max (testEscape (2 + d.1 * 8) (0 + d.2 * 8) 3) m)
            (testEscape 2 0 3) :=
  ⟨by norm_num [testEscape, testEscapeGo],
   ((findBestReference_spec 2 0 8 8 3).2 (by norm_num [testEscape, testEscapeGo])).1⟩

/-- C6: with `height = 9` and `workerCount = 4`, the dispatched bands are
the ceil-sized contiguous `[(0,3), (3,6), (6,9)]` and cover every row of
`[0, 9)` exactly once — but only 3 bands exist while the task registry
records `total = workerCount = 4`, so even after every dispatched band has
returned, the completion test `received === total` never fires and the frame
is never marked complete. -/
theorem bands_completion_mismatch :
    chunksPerWorker 9 4 = 3 ∧
    bands 9 4 = [(0, 3), (3, 6), (6, 9)] ∧
    ((bands 9 4).map fun b => List.range' b.1 (b.2 - b.1)).flatten = List.range 9 ∧
    (bands 9 4).length = 3 ∧
    frameComplete (bands 9 4).length 4 = false := by decide

/-- C7 counterexample: from the view `{center = (0,0), zoom = 1}` on a
100×100 canvas, `zoomAt` at screen point `(100, 50)` (complex point `(2,0)`)
followed by `zoomAt` at the same point zooming out settles at
`{center = (0.5, 0), zoom = 1}`: the zoom is restored but the center is
not. -/
theorem zoomAt_roundtrip_counterexample :
    zoomAtTarget (zoomAtTarget ⟨0, 0, 1⟩ 100 100 100 50 true) 100 100 100 50 false
      = (⟨1/2, 0, 1⟩ : View) ∧
    (⟨1/2, 0, 1⟩ : View) ≠ (⟨0, 0, 1⟩ : View) := by
  norm_num [zoomAtTarget, complexAtPoint, View.mk.injEq]

/-- C7 amended: a settled `zoomAt(p, true)` followed by a settled
`zoomAt(p, false)` at the same screen point restores the zoom exactly, and
moves the center a quarter of the way from the original center toward the
complex point initially under `p` — so the center is restored only when `p`
is the screen center. -/
theorem zoomAt_roundtrip_quarters_center (v : View) (rw rh sx sy : ℚ)
    (hz : v.zoom ≠ 0) (hrw : rw ≠ 0) (hrh : rh ≠ 0) :
    (zoomAtTarget (zoomAtTarget v rw rh sx sy true) rw rh sx sy false).zoom = v.zoom ∧
    (zoomAtTarget (zoomAtTarget v rw rh sx sy true) rw rh sx sy false).cx
      = v.cx + ((complexAtPoint v rw rh sx sy).1 - v.cx) / 4 ∧
    (zoomAtTarget (zoomAtTarget v rw rh sx sy true) rw rh sx sy false).cy
      = v.cy + ((complexAtPoint v rw rh sx sy).2 - v.cy) / 4 := by
  obtain ⟨cx, cy, z⟩ := v
  have hrr : rw / rh ≠ 0 := div_ne_zero hrw hrh
  simp only [zoomAtTarget, complexAtPoint, if_pos, if_neg, Bool.false_eq_true,
    not_false_iff]
  refine ⟨by ring, ?_, ?_⟩ <;> · field_simp; ring

/-- C7 witness: the amended round-trip law at the concrete counterexample
input. -/
theorem zoomAt_roundtrip_quarters_center_witness :
    ((1 : ℚ) ≠ 0 ∧ (100 : ℚ) ≠ 0) ∧
    (zoomAtTarget (zoomAtTarget ⟨0, 0, 1⟩ 100 100 100 50 true) 100 100 100 50 false).zoom
      = (1 : ℚ) ∧
    (zoomAtTarget (zoomAtTarget ⟨0, 0, 1⟩ 100 100 100 50 true) 100 100 100 50 false).cx
      = 0 + ((complexAtPoint ⟨0, 0, 1⟩ 100 100 100 50).1 - 0) / 4 :=
  ⟨⟨by norm_num, by norm_num⟩,
    (zoomAt_roundtrip_quarters_center ⟨0, 0, 1⟩ 100 100 100 50 (by norm_num) (by norm_num)
      (by norm_num)).1,
    (zoomAt_roundtrip_quarters_center ⟨0, 0, 1⟩ 100 100 100 50 (by norm_num) (by norm_num)
      (by norm_num)).2.1⟩

/-- Base-2 logarithm is below the identity from 1 on. -/
theorem logb_two_le_self (x : ℝ) (hx : 1 ≤ x) : Real.logb 2 x ≤ x := by
  have hx0 : (0 : ℝ) < x := by linarith
  have hl2 : (0.6931471803 : ℝ) < Real.log 2 := Real.log_two_gt_d9
  have hl2' : Real.log 2 < 0.6931471808 := Real.log_two_lt_d9
  have hlogpos : (0 : ℝ) < Real.log 2 := by linarith
  rw [Real.logb, div_le_iff₀ hlogpos]
  have hs : Real.sqrt x * Real.sqrt x = x := Real.mul_self_sqrt (le_of_lt hx0)
  have hs1 : 1 ≤ Real.sqrt x := by
    rw [show (1 : ℝ) = Real.sqrt 1 from Real.sqrt_one.symm]
    exact Real.sqrt_le_sqrt hx
  have hlx : Real.log x = 2 * Real.log (Real.sqrt x) := by
    rw [Real.log_sqrt (le_of_lt hx0)]
    ring
  have hbound : Real.log (Real.sqrt x) ≤ Real.sqrt x - 1 :=
    Real.log_le_sub_one_of_pos (by linarith)
  nlinarith [sq_nonneg (Real.sqrt x - 3607/2500), hs, hs1, hbound, hl2, hl2',
    mul_nonneg (sq_nonneg (Real.sqrt x - 3607/2500)) (le_of_lt hlogpos)]

/-- The doubly iterated base-2 logarithm of `n ≥ 2` stays below `n`:
the smooth-coloring correction term never exceeds `iteration + 1`. -/
theorem logb_logb_le_self (n : ℝ) (hn : 2 ≤ n) : Real.logb 2 (Real.logb 2 n) ≤ n := by
  have h1 : 1 ≤ Real.logb 2 n := by
    have h2 : Real.logb 2 2 = 1 := by
      rw [Real.logb, div_self (Real.log_pos one_lt_two).ne']
    rw [← h2]
    exact Real.logb_le_logb_of_le one_lt_two (by norm_num) hn
  exact le_trans (logb_two_le_self _ h1) (logb_two_le_self n (by linarith))

/-- Floor of an integer divided by 8, over the reals, is integer division. -/
theorem floor_intCast_div_eight (m : ℤ) : ⌊(m : ℝ) / 8⌋ = m / 8 := by
  rw [Int.floor_eq_iff]
  constructor
  · rw [le_div_iff₀ (by norm_num : (0 : ℝ) < 8)]
    exact_mod_cast (by omega : m / 8 * 8 ≤ m)
  · rw [div_lt_iff₀ (by norm_num : (0 : ℝ) < 8)]
    exact_mod_cast (by omega : m < (m / 8 + 1) * 8)

/-- The JS remainder of a nonnegative integer by 8 is its residue, an
integer in `[0, 8)`. -/
theorem jsMod_intCast_eight (m : ℤ) (hm : 0 ≤ m) :
    jsMod (.num (m : ℝ)) (.num 8) = .num ((m % 8 : ℤ) : ℝ) := by
  simp only [jsMod]
  rw [if_neg (by norm_num : ¬ (8 : ℝ) = 0)]
  have htr : jsTruncR ((m : ℝ) / 8) = m / 8 := by
    rw [jsTruncR, if_pos (div_nonneg (by exact_mod_cast hm) (by norm_num)),
      floor_intCast_div_eight]
  rw [htr]
  congr 1
  push_cast [Int.emod_def]
  ring

/-- A successful palette read returns one of the eight colour entries; all
their channels lie in `[0, 255]`. -/
theorem jsColorsGet_bounds (v : JSVal) (c : ℤ × ℤ × ℤ) (h : jsColorsGet v = some c) :
    0 ≤ c.1 ∧ c.1 ≤ 255 ∧ 0 ≤ c.2.1 ∧ c.2.1 ≤ 255 ∧ 0 ≤ c.2.2 ∧ c.2.2 ≤ 255 := by
  cases v with
  | num x =>
    simp only [jsColorsGet] at h
    split_ifs at h <;> simp only [Option.some.injEq] at h <;> subst h <;> norm_num
  | posInf => simp [jsColorsGet] at h
  | negInf => simp [jsColorsGet] at h
  | nan => simp [jsColorsGet] at h

/-- The palette read succeeds on every integer index in `[0, 8)`. -/
theorem jsColorsGet_intCast_isSome (k : ℤ) (h0 : 0 ≤ k) (h7 : k < 8) :
    ∃ c, jsColorsGet (.num (k : ℝ)) = some c := by
  rw [← Option.isSome_iff_exists]
  interval_cases k <;> norm_num [jsColorsGet]

/-- A successful palette read through `floor`/`%` forces the scale to be a
finite number. -/
theorem colorScale_num_of_lookup (v : JSVal) (c : ℤ × ℤ × ℤ)
    (h : jsColorsGet (jsMod (jsFloor v) (.num 8)) = some c) : ∃ s, v = JSVal.num s := by
  cases v with
  | num s => exact ⟨s, rfl⟩
  | posInf => simp [jsFloor, jsMod, jsColorsGet] at h
  | negInf => simp [jsFloor, jsMod, jsColorsGet] at h
  | nan => simp [jsFloor, jsMod, jsColorsGet] at h

/-- The cosine interpolation on a finite `t` yields the rounded channel
triple. -/
theorem jsInterpolate_num (c1 c2 : ℤ × ℤ × ℤ) (s : ℝ) :
    jsInterpolate c1 c2 (.num s) =
      some (round ((c1.1 : ℝ) + ((c2.1 : ℝ) - (c1.1 : ℝ)) * ((1 - Real.cos (s * Real.pi)) / 2)),
            round ((c1.2.1 : ℝ) + ((c2.2.1 : ℝ) - (c1.2.1 : ℝ)) * ((1 - Real.cos (s * Real.pi)) / 2)),
            round ((c1.2.2 : ℝ) + ((c2.2.2 : ℝ) - (c1.2.2 : ℝ)) * ((1 - Real.cos (s * Real.pi)) / 2))) := by
  simp only [jsInterpolate, jsMul, jsCos, jsSub, jsDiv, jsAdd, jsRound]
  rw [if_neg (by norm_num : ¬ (2 : ℝ) = 0)]

/-- Rounding a cosine-eased interpolation of two channels in `[0, 255]`
stays in `[0, 255]`. -/
theorem round_interp_bounds (a b : ℤ) (f : ℝ)
    (ha0 : 0 ≤ a) (ha1 : a ≤ 255) (hb0 : 0 ≤ b) (hb1 : b ≤ 255)
    (hf0 : 0 ≤ f) (hf1 : f ≤ 1) :
    0 ≤ round ((a : ℝ) + ((b : ℝ) - (a : ℝ)) * f) ∧
      round ((a : ℝ) + ((b : ℝ) - (a : ℝ)) * f) ≤ 255 := by
  have ha0' : (0 : ℝ) ≤ (a : ℝ) := by exact_mod_cast ha0
  have ha1' : (a : ℝ) ≤ 255 := by exact_mod_cast ha1
  have hb0' : (0 : ℝ) ≤ (b : ℝ) := by exact_mod_cast hb0
  have hb1' : (b : ℝ) ≤ 255 := by exact_mod_cast hb1
  have hlow : (0 : ℝ) ≤ (a : ℝ) + ((b : ℝ) - (a : ℝ)) * f := by nlinarith
  have hhigh : (a : ℝ) + ((b : ℝ) - (a : ℝ)) * f ≤ 255 := by nlinarith
  rw [round_eq]
  constructor
  · exact Int.le_floor.mpr (by push_cast; linarith)
  · have := Int.floor_lt.mpr
      (show (a : ℝ) + ((b : ℝ) - (a : ℝ)) * f + 1/2 < (256 : ℤ) by push_cast; linarith)
    omega

/-- The eased blend factor `(1 - cos θ) / 2` lies in `[0, 1]`. -/
theorem blend_factor_bounds (θ : ℝ) :
    0 ≤ (1 - Real.cos θ) / 2 ∧ (1 - Real.cos θ) / 2 ≤ 1 := by
  have h1 := Real.cos_le_one θ
  have h2 := Real.neg_one_le_cos θ
  constructor <;> linarith

/-- C9 counterexample: the unguarded `getColor` at `iteration = 0` (with
`maxIterations = 100`): its smooth-coloring intermediate is
`log2(log2(1)) = log2(0) = -Infinity`, so `smoothed = +Infinity`, the
palette index becomes `NaN`, and the palette read is `undefined` — the
function does not return a finite in-range triple (in the browser, the
`c1.r` access throws a `TypeError`). -/
theorem getColorUnguarded_crashes_at_zero : getColorUnguarded 0 100 = none := by
  rw [getColorUnguarded, if_neg (by norm_num : ¬ (0 : ℕ) = 100)]
  norm_num [jsLog2, jsSub, jsDiv, jsMul, jsFloor, jsMod, jsAdd, jsColorsGet,
    paletteBlend, Real.logb_one]

/-- When both palette reads succeed, the blend is the interpolation. -/
theorem paletteBlend_some_some (ci ni t : JSVal) (fb : Option (ℤ × ℤ × ℤ))
    (c1 c2 : ℤ × ℤ × ℤ) (h1 : jsColorsGet ci = some c1) (h2 : jsColorsGet ni = some c2) :
    paletteBlend ci ni t fb = jsInterpolate c1 c2 t := by
  unfold paletteBlend
  rw [h1, h2]

/-- When either palette read fails, the blend is the fallback. -/
theorem paletteBlend_fallback (ci ni t : JSVal) (fb : Option (ℤ × ℤ × ℤ))
    (h : jsColorsGet ci = none ∨ jsColorsGet ni = none) :
    paletteBlend ci ni t fb = fb := by
  unfold paletteBlend
  cases hA : jsColorsGet ci <;> cases hB : jsColorsGet ni <;>
    first
      | rfl
      | (rcases h with h | h <;> simp_all)

/-- The lookup-and-blend tail of the guarded copy always produces a triple
of integers in `[0, 255]`: a failed read takes the `[255, 0, 255]` fallback,
and a successful read forces the scale `v` to be finite, so the cosine
blend of two palette entries is rounded into range. -/
theorem paletteBlend_guarded_inRange (v ni : JSVal) :
    ∃ r g b, paletteBlend (jsMod (jsFloor v) (.num 8)) ni (jsSub v (jsFloor v))
        (some (255, 0, 255)) = some (r, g, b) ∧
      0 ≤ r ∧ r ≤ 255 ∧ 0 ≤ g ∧ g ≤ 255 ∧ 0 ≤ b ∧ b ≤ 255 := by
  cases h1 : jsColorsGet (jsMod (jsFloor v) (.num 8)) with
  | none =>
    rw [paletteBlend_fallback _ _ _ _ (Or.inl h1)]
    exact ⟨255, 0, 255, rfl, by norm_num, by norm_num, by norm_num, by norm_num,
      by norm_num, by norm_num⟩
  | some c1 =>
    cases h2 : jsColorsGet ni with
    | none =>
      rw [paletteBlend_fallback _ _ _ _ (Or.inr h2)]
      exact ⟨255, 0, 255, rfl, by norm_num, by norm_num, by norm_num, by norm_num,
        by norm_num, by norm_num⟩
    | some c2 =>
      rw [paletteBlend_some_some _ _ _ _ c1 c2 h1 h2]
      obtain ⟨s, rfl⟩ := colorScale_num_of_lookup v c1 h1
      obtain ⟨b10, b11, b12, b13, b14, b15⟩ := jsColorsGet_bounds _ _ h1
      obtain ⟨b20, b21, b22, b23, b24, b25⟩ := jsColorsGet_bounds _ _ h2
      simp only [jsFloor, jsSub]
      rw [jsInterpolate_num]
      obtain ⟨hf0, hf1⟩ := blend_factor_bounds ((s - (⌊s⌋ : ℤ)) * Real.pi)
      obtain ⟨hr0, hr1⟩ := round_interp_bounds c1.1 c2.1 _ b10 b11 b20 b21 hf0 hf1
      obtain ⟨hg0, hg1⟩ := round_interp_bounds c1.2.1 c2.2.1 _ b12 b13 b22 b23 hf0 hf1
      obtain ⟨hb0, hb1⟩ := round_interp_bounds c1.2.2 c2.2.2 _ b14 b15 b24 b25 hf0 hf1
      exact ⟨_, _, _, rfl, hr0, hr1, hg0, hg1, hb0, hb1⟩

/-- The guarded `getColor` copy always returns a triple of integers in
`[0, 255]`: black for `iteration = maxIterations`, the undefined-entry
fallback `[255, 0, 255]` when a palette read fails, and a cosine
interpolation of two palette entries otherwise. -/
theorem getColorGuarded_some_inRange (it maxI : ℕ) (h2 : it ≤ maxI) :
    ∃ r g b, getColorGuarded it maxI = some (r, g, b) ∧
      0 ≤ r ∧ r ≤ 255 ∧ 0 ≤ g ∧ g ≤ 255 ∧ 0 ≤ b ∧ b ≤ 255 := by
  by_cases hend : it = maxI
  · exact ⟨0, 0, 0, by rw [getColorGuarded, if_pos hend], by norm_num, by norm_num,
      by norm_num, by norm_num, by norm_num, by norm_num⟩
  · rw [getColorGuarded, if_neg hend]
    exact paletteBlend_guarded_inRange _ _

/-- The unguarded `getColor` copy, away from `iteration = 0`, also returns a
triple of integers in `[0, 255]`: for `iteration ≥ 1` its smooth-coloring
intermediates are finite and nonnegative, so the palette index stays an
integer in `[0, 8)`. -/
theorem getColorUnguarded_some_inRange (it maxI : ℕ) (h1 : 1 ≤ it) (h2 : it < maxI) :
    ∃ r g b, getColorUnguarded it maxI = some (r, g, b) ∧
      0 ≤ r ∧ r ≤ 255 ∧ 0 ≤ g ∧ g ≤ 255 ∧ 0 ≤ b ∧ b ≤ 255 := by
  have hne : ¬ it = maxI := by omega
  have hn2 : (2 : ℝ) ≤ (it : ℝ) + 1 := by
    have : (1 : ℝ) ≤ (it : ℝ) := by exact_mod_cast h1
    linarith
  have hlogb22 : Real.logb 2 2 = 1 := by
    rw [Real.logb, div_self (Real.log_pos one_lt_two).ne']
  have hL1 : 1 ≤ Real.logb 2 ((it : ℝ) + 1) := by
    have h := Real.logb_le_logb_of_le one_lt_two (by norm_num : (0 : ℝ) < 2) hn2
    rw [hlogb22] at h
    exact h
  have e1 : jsLog2 (.num ((it : ℝ) + 1)) = .num (Real.logb 2 ((it : ℝ) + 1)) := by
    simp only [jsLog2]
    rw [if_pos (by linarith : (0 : ℝ) < (it : ℝ) + 1)]
  have e2 : jsLog2 (.num (Real.logb 2 ((it : ℝ) + 1)))
      = .num (Real.logb 2 (Real.logb 2 ((it : ℝ) + 1))) := by
    simp only [jsLog2]
    rw [if_pos (by linarith : (0 : ℝ) < Real.logb 2 ((it : ℝ) + 1))]
  have hS : 0 ≤ (it : ℝ) + 1 - Real.logb 2 (Real.logb 2 ((it : ℝ) + 1)) := by
    have := logb_logb_le_self ((it : ℝ) + 1) hn2
    linarith
  have hmaxI : ((maxI : ℝ)) ≠ 0 := Nat.cast_ne_zero.mpr (by omega)
  have hCS : 0 ≤ ((it : ℝ) + 1 - Real.logb 2 (Real.logb 2 ((it : ℝ) + 1))) / (maxI : ℝ) * 7 * 4 :=
    mul_nonneg (mul_nonneg (div_nonneg hS (by positivity)) (by norm_num)) (by norm_num)
  have e4 : jsDiv (.num ((it : ℝ) + 1 - Real.logb 2 (Real.logb 2 ((it : ℝ) + 1))))
      (.num (maxI : ℝ))
      = .num (((it : ℝ) + 1 - Real.logb 2 (Real.logb 2 ((it : ℝ) + 1))) / (maxI : ℝ)) := by
    simp only [jsDiv]
    rw [if_neg hmaxI]
  have hm0 : 0 ≤ ⌊((it : ℝ) + 1 - Real.logb 2 (Real.logb 2 ((it : ℝ) + 1))) / (maxI : ℝ) * 7 * 4⌋ :=
    Int.floor_nonneg.mpr hCS
  obtain ⟨c1, hc1⟩ := jsColorsGet_intCast_isSome
    (⌊((it : ℝ) + 1 - Real.logb 2 (Real.logb 2 ((it : ℝ) + 1))) / (maxI : ℝ) * 7 * 4⌋ % 8)
    (Int.emod_nonneg _ (by norm_num)) (Int.emod_lt_of_pos _ (by norm_num))
  obtain ⟨c2, hc2⟩ := jsColorsGet_intCast_isSome
    ((⌊((it : ℝ) + 1 - Real.logb 2 (Real.logb 2 ((it : ℝ) + 1))) / (maxI : ℝ) * 7 * 4⌋ % 8 + 1) % 8)
    (Int.emod_nonneg _ (by norm_num)) (Int.emod_lt_of_pos _ (by norm_num))
  obtain ⟨b10, b11, b12, b13, b14, b15⟩ := jsColorsGet_bounds _ _ hc1
  obtain ⟨b20, b21, b22, b23, b24, b25⟩ := jsColorsGet_bounds _ _ hc2
  rw [getColorUnguarded, if_neg hne]
  simp only [e1, e2, jsSub, jsMul, e4, jsFloor]
  rw [jsMod_intCast_eight _ hm0]
  simp only [jsAdd]
  rw [show ((((⌊((it : ℝ) + 1 - Real.logb 2 (Real.logb 2 ((it : ℝ) + 1))) / (maxI : ℝ) * 7 * 4⌋ % 8 : ℤ)) : ℝ) + 1)
      = (((⌊((it : ℝ) + 1 - Real.logb 2 (Real.logb 2 ((it : ℝ) + 1))) / (maxI : ℝ) * 7 * 4⌋ % 8 + 1 : ℤ)) : ℝ)
    from by push_cast; ring]
  rw [jsMod_intCast_eight _
    (by exact add_nonneg (Int.emod_nonneg _ (by norm_num)) (by norm_num))]
  rw [paletteBlend_some_some _ _ _ _ c1 c2 hc1 hc2]
  rw [jsInterpolate_num]
  obtain ⟨hf0, hf1⟩ := blend_factor_bounds
    ((((it : ℝ) + 1 - Real.logb 2 (Real.logb 2 ((it : ℝ) + 1))) / (maxI : ℝ) * 7 * 4 -
      (⌊((it : ℝ) + 1 - Real.logb 2 (Real.logb 2 ((it : ℝ) + 1))) / (maxI : ℝ) * 7 * 4⌋ : ℤ)) * Real.pi)
  obtain ⟨hr0, hr1⟩ := round_interp_bounds c1.1 c2.1 _ b10 b11 b20 b21 hf0 hf1
  obtain ⟨hg0, hg1⟩ := round_interp_bounds c1.2.1 c2.2.1 _ b12 b13 b22 b23 hf0 hf1
  obtain ⟨hb0, hb1⟩ := round_interp_bounds c1.2.2 c2.2.2 _ b14 b15 b24 b25 hf0 hf1
  exact ⟨_, _, _, rfl, hr0, hr1, hg0, hg1, hb0, hb1⟩

/-- C9 amended: the guarded `getColor` copy returns a triple of finite
integers each in `[0, 255]` for every `maxIterations ≥ 1` and every
`0 ≤ iteration ≤ maxIterations`; the unguarded copy does so only for
`iteration ≥ 1` — at `iteration = 0` its smooth-coloring intermediate
`log2(log2(1))` is `-Infinity` and the palette read is undefined. -/
theorem getColor_total_inRange (it maxI : ℕ) (hmax : 1 ≤ maxI) (hit : it ≤ maxI) :
    (∃ r g b, getColorGuarded it maxI = some (r, g, b) ∧
      0 ≤ r ∧ r ≤ 255 ∧ 0 ≤ g ∧ g ≤ 255 ∧ 0 ≤ b ∧ b ≤ 255) ∧
    (1 ≤ it → ∃ r g b, getColorUnguarded it maxI = some (r, g, b) ∧
      0 ≤ r ∧ r ≤ 255 ∧ 0 ≤ g ∧ g ≤ 255 ∧ 0 ≤ b ∧ b ≤ 255) := by
  refine ⟨getColorGuarded_some_inRange it maxI hit, ?_⟩
  intro h1
  by_cases hend : it = maxI
  · exact ⟨0, 0, 0, by rw [getColorUnguarded, if_pos hend], by norm_num, by norm_num,
      by norm_num, by norm_num, by norm_num, by norm_num⟩
  · exact getColorUnguarded_some_inRange it maxI h1 (by omega)

/-- C9 witness: the in-range law at `iteration = 1`, `maxIterations = 2`. -/
theorem getColor_total_inRange_witness :
    ((1 : ℕ) ≤ 2 ∧ (1 : ℕ) ≤ 2) ∧
    ((∃ r g b, getColorGuarded 1 2 = some (r, g, b) ∧
        0 ≤ r ∧ r ≤ 255 ∧ 0 ≤ g ∧ g ≤ 255 ∧ 0 ≤ b ∧ b ≤ 255) ∧
      (1 ≤ 1 → ∃ r g b, getColorUnguarded 1 2 = some (r, g, b) ∧
        0 ≤ r ∧ r ≤ 255 ∧ 0 ≤ g ∧ g ≤ 255 ∧ 0 ≤ b ∧ b ≤ 255)) :=
  ⟨⟨by decide, by decide⟩, getColor_total_inRange 1 2 (by decide) (by decide)⟩

/-- C10: for every zoom factor `f > 1`, `zoomAtInstant` leaves the complex
coordinate under the cursor unchanged: converting the same screen point
through the view after the instant zoom yields exactly the complex point it
had before. -/
theorem zoomAtInstant_cursor_invariant (v : View) (rw rh sx sy f : ℚ)
    (hf : 1 < f) (hz : v.zoom ≠ 0) (hrw : rw ≠ 0) (hrh : rh ≠ 0) :
    complexAtPoint (zoomAtInstantView v rw rh sx sy f) rw rh sx sy
      = complexAtPoint v rw rh sx sy := by
  obtain ⟨cx, cy, z⟩ := v
  have hf0 : f ≠ 0 := (lt_trans zero_lt_one hf).ne'
  have hrr : rw / rh ≠ 0 := div_ne_zero hrw hrh
  simp only [zoomAtInstantView, complexAtPoint, if_pos hf]
  rw [Prod.ext_iff]
  constructor <;> · simp only []; field_simp; ring

/-- C10 witness: cursor invariance at the concrete input
`view = {(-1/2, 0), zoom = 2}`, 200×100 canvas, screen point `(30, 40)`,
factor `f = 3`. -/
theorem zoomAtInstant_cursor_invariant_witness :
    ((1 : ℚ) < 3 ∧ (2 : ℚ) ≠ 0 ∧ (200 : ℚ) ≠ 0 ∧ (100 : ℚ) ≠ 0) ∧
    complexAtPoint (zoomAtInstantView ⟨-1/2, 0, 2⟩ 200 100 30 40 3) 200 100 30 40
      = complexAtPoint ⟨-1/2, 0, 2⟩ 200 100 30 40 :=
  ⟨⟨by norm_num, by norm_num, by norm_num, by norm_num⟩,
    zoomAtInstant_cursor_invariant ⟨-1/2, 0, 2⟩ 200 100 30 40 3 (by norm_num) (by norm_num)
      (by norm_num) (by norm_num)⟩

end MandelbrotExplorer
